import Mathlib

/-
Verification of the AggreBench QA generation-and-validation core.

The definitions below are a shallow embedding of the Python sources:
  src/utils/cache_manager.py   (QACacheManager)
  src/utils/validator.py       (Validator)
  src/pipeline/question_generator.py (QuestionGenerator, BatchValidator)

Modelling conventions:
  - Python machine floats are modelled as exact rationals (`Rat`); every float
    value reaching the comparison and normalization code in these claims
    originates from a decimal literal or an exact small integer, for which the
    rational model agrees with IEEE semantics.
  - Python dynamic values are modelled by the inductive `PyVal`.
  - Fallible Python code is modelled with `Except PyError`; an uncaught Python
    exception is an `Except.error`.
  - `random.randint` / `random.sample` are modelled by functions taking the
    random draws as explicit arguments, so that every outcome of the Python
    RNG corresponds to some argument value.
  - Python's `sorted`/`list.sort` (stable, ascending by key) is modelled by
    the stable insertion sort `pySorted`.
-/

attribute [local semireducible] Rat.add Rat.sub Rat.mul Rat.inv Rat.ofScientific

deriving instance DecidableEq for Except

namespace AggreBench

/-- Python exceptions that the embedded code can raise. -/
inductive PyError where
  | typeError (msg : String)
  | valueError (msg : String)
  | indexError (msg : String)
  deriving DecidableEq, Repr

/-- Dynamic Python values (the subset flowing through the embedded code). -/
inductive PyVal where
  | none
  | bool (b : Bool)
  | int (n : Int)
  | float (q : Rat)
  | str (s : String)
  | list (xs : List PyVal)
  | dict (kvs : List (String × PyVal))
  deriving Repr

/-- Python truthiness (`bool(v)`), on the values used by the embedded code. -/
def pyTruthy : PyVal → Bool
  | .none => false
  | .bool b => b
  | .int n => n ≠ 0
  | .float q => q ≠ 0
  | .str s => s ≠ ""
  | .list xs => ¬ xs.isEmpty
  | .dict kvs => ¬ kvs.isEmpty

/-- Decimal digit characters of a natural number (used to print numbers). -/
def natDigits (n : Nat) : String := toString n

/-- Count of factors `p` in `n` (fuel-driven so it reduces in the kernel). -/
def countFactorsFuel (p : Nat) : Nat → Nat → Nat
  | 0, _ => 0
  | fuel + 1, n =>
    if 2 ≤ p ∧ 0 < n ∧ n % p = 0 then countFactorsFuel p fuel (n / p) + 1
    else 0

/-- Exact decimal rendering of a rational whose denominator divides a power of
ten, mirroring Python's `str(float(x))` for the decimal-valued floats that the
code produces (`"279000000.0"`, `"180.5"`, ...). Rationals with other
denominators (unreachable from decimal inputs) get an injective fallback
rendering; only equality of rendered values matters downstream. -/
def pyFloatStr (q : Rat) : String :=
  let sign := if q < 0 then "-" else ""
  let q := if q < 0 then -q else q
  let den := q.den
  let a := countFactorsFuel 2 den den
  let b := countFactorsFuel 5 den den
  let k := max a b
  if den = 2 ^ a * 5 ^ b then
    let scaled : Nat := (q * (10 : Rat) ^ k).num.toNat
    let ip := scaled / 10 ^ k
    let fp := scaled % 10 ^ k
    if k = 0 then sign ++ natDigits ip ++ ".0"
    else
      let fracDigits := (natDigits (10 ^ k + fp)).data.drop 1
      let fracDigits := (fracDigits.reverse.dropWhile (· = '0')).reverse
      let fracDigits := if fracDigits.isEmpty then "0" else String.mk fracDigits
      sign ++ natDigits ip ++ "." ++ fracDigits
  else sign ++ natDigits q.num.toNat ++ "r" ++ natDigits den

/-- Python single-quote used by `repr` of strings inside containers. -/
def pyQuote (s : String) : String :=
  let q := String.singleton (Char.ofNat 39)
  q ++ s ++ q

mutual
/-- Python `str(v)`. -/
def pyStr : PyVal → String
  | .none => "None"
  | .bool b => if b then "True" else "False"
  | .int n => toString n
  | .float q => pyFloatStr q
  | .str s => s
  | .list xs => "[" ++ String.intercalate ", " (pyReprList xs) ++ "]"
  | .dict kvs => "\x7b" ++ String.intercalate ", " (pyReprKvs kvs) ++ "\x7d"

/-- Python `repr(v)` (differs from `str` only on strings). -/
def pyRepr : PyVal → String
  | .str s => pyQuote s
  | v => pyStrAux v

/-- `str` on non-string values; shares code with `pyStr`. -/
def pyStrAux : PyVal → String
  | .none => "None"
  | .bool b => if b then "True" else "False"
  | .int n => toString n
  | .float q => pyFloatStr q
  | .str s => s
  | .list xs => "[" ++ String.intercalate ", " (pyReprList xs) ++ "]"
  | .dict kvs => "\x7b" ++ String.intercalate ", " (pyReprKvs kvs) ++ "\x7d"

def pyReprList : List PyVal → List String
  | [] => []
  | v :: vs => pyRepr v :: pyReprList vs

def pyReprKvs : List (String × PyVal) → List String
  | [] => []
  | (k, v) :: kvs => (pyQuote k ++ ": " ++ pyRepr v) :: pyReprKvs kvs
end

/-! ### Stable sorting (Python `sorted` / `list.sort`) -/

/-- Insert `a` after every element `b` with `le b a`; the insertion step of a
stable insertion sort equivalent to Python's stable ascending sort. -/
def stableInsert (le : α → α → Bool) (a : α) : List α → List α
  | [] => [a]
  | b :: l => if le b a then b :: stableInsert le a l else a :: b :: l

/-- Python's `sorted(l, key=...)`: stable sort, ascending by `le`. -/
def pySorted (le : α → α → Bool) (l : List α) : List α :=
  l.foldl (fun acc x => stableInsert le x acc) []

theorem stableInsert_perm (le : α → α → Bool) (a : α) :
    ∀ l : List α, List.Perm (stableInsert le a l) (a :: l) := by
  intro l
  induction l with
  | nil => simp [stableInsert]
  | cons b l ih =>
    simp only [stableInsert]
    by_cases h : le b a
    · simp only [h, if_pos]
      exact (ih.cons b).trans (List.Perm.swap a b l)
    · simp [h]

theorem pySorted_perm (le : α → α → Bool) (l : List α) : List.Perm (pySorted le l) l := by
  suffices h : ∀ (l : List α) (acc : List α),
      List.Perm (l.foldl (fun acc x => stableInsert le x acc) acc) (acc ++ l) by
    simpa using h l []
  intro l
  induction l with
  | nil => simp
  | cons x xs ih =>
    intro acc
    simp only [List.foldl_cons]
    refine (ih (stableInsert le x acc)).trans ?_
    refine (List.Perm.append_right xs ((stableInsert_perm le x acc))).trans ?_
    simpa using (@List.perm_middle _ x acc xs).symm

theorem mem_stableInsert (le : α → α → Bool) (a : α) (l : List α) (y : α) :
    y ∈ stableInsert le a l ↔ y = a ∨ y ∈ l := by
  have := (stableInsert_perm le a l).mem_iff (a := y)
  simpa using this

theorem pairwise_stableInsert (le : α → α → Bool)
    (htot : ∀ x y, le x y = true ∨ le y x = true)
    (htrans : ∀ x y z, le x y = true → le y z = true → le x z = true)
    (a : α) :
    ∀ l : List α, l.Pairwise (fun x y => le x y = true) →
      (stableInsert le a l).Pairwise (fun x y => le x y = true) := by
  intro l
  induction l with
  | nil => intro _; simp [stableInsert]
  | cons b l ih =>
    intro h
    rcases List.pairwise_cons.1 h with ⟨hb, hl⟩
    simp only [stableInsert]
    by_cases hba : le b a
    · simp only [hba, if_pos]
      refine List.pairwise_cons.2 ⟨?_, ih hl⟩
      intro y hy
      rcases (mem_stableInsert le a l y).1 hy with rfl | hy
      · exact hba
      · exact hb y hy
    · simp only [hba, if_neg]
      have hab : le a b = true := by
        rcases htot a b with h1 | h1
        · exact h1
        · exact absurd h1 (by simpa using hba)
      refine List.pairwise_cons.2 ⟨?_, h⟩
      intro y hy
      rcases hy with _ | hy
      · exact hab
      · exact htrans a b y hab (hb y (by assumption))

theorem pairwise_pySorted (le : α → α → Bool)
    (htot : ∀ x y, le x y = true ∨ le y x = true)
    (htrans : ∀ x y z, le x y = true → le y z = true → le x z = true)
    (l : List α) :
    (pySorted le l).Pairwise (fun x y => le x y = true) := by
  suffices h : ∀ (l acc : List α),
      acc.Pairwise (fun x y => le x y = true) →
      (l.foldl (fun acc x => stableInsert le x acc) acc).Pairwise
        (fun x y => le x y = true) by
    exact h l [] (by simp)
  intro l
  induction l with
  | nil => intro acc h; simpa using h
  | cons x xs ih =>
    intro acc h
    simp only [List.foldl_cons]
    exact ih _ (pairwise_stableInsert le htot htrans x acc h)

/-! ### QACacheManager (src/utils/cache_manager.py) -/

/-- The `sql_info` dictionary stored on a cache item. -/
abbrev SqlInfo := List (String × PyVal)

/-- A stored QA cache record: the keys written by `QACacheManager.add_qa`
(`qa_data_to_store`).  `dict.update` with a record containing all of these
keys replaces every one of them, so the record is modelled as a structure. -/
structure QAItem where
  qa_id : String
  question_text : Option String
  answer_text : PyVal
  evidence : Option (List (List PyVal))
  conversation_id : Option String
  session_ids : Option (List String)
  timestamp : String
  difficulty : Option String
  status : String
  sql_info : SqlInfo

/-- The incoming `qa_pair` dictionary passed to `add_qa`; absent keys are
`Option.none` (Python `dict.get` default `None`). -/
structure QAInput where
  qa_id : Option String := Option.none
  question_text : Option String := Option.none
  answer_text : PyVal := PyVal.none
  evidence : Option (List (List PyVal)) := Option.none
  conversation_id : Option String := Option.none
  session_ids : Option (List String) := Option.none
  timestamp : Option String := Option.none
  difficulty : Option String := Option.none

/-- `QACacheManager.generate_qa_id`: an MD5 of the question text.  The hash
itself is an opaque parameter `md5`. -/
def generate_qa_id (md5 : String → String) (qa_pair : QAInput) : String :=
  md5 (qa_pair.question_text.getD "")

/-- The linear scan for an existing `qa_id` in `add_qa` (the
`for i, q in enumerate(...)` loop with `break`). -/
def find_qa_index (qa_id : String) : List QAItem → Option Nat
  | [] => Option.none
  | q :: rest =>
    if q.qa_id = qa_id then Option.some 0
    else (find_qa_index qa_id rest).map (· + 1)

/-- The `qa_data_to_store` record built inside `add_qa`; `now` models
`time.strftime("%Y-%m-%dT%H:%M:%S")`. -/
def qa_data_to_store (now : String) (qa_id : String) (qa_pair : QAInput)
    (status : String) (sql_info : SqlInfo) : QAItem :=
  { qa_id := qa_id
    question_text := qa_pair.question_text
    answer_text := qa_pair.answer_text
    evidence := qa_pair.evidence
    conversation_id := qa_pair.conversation_id
    session_ids := qa_pair.session_ids
    timestamp := qa_pair.timestamp.getD now
    difficulty := qa_pair.difficulty
    status := status
    sql_info := sql_info }

/-- The status-priority guard in `add_qa`:
`(current_status == "liked" and status != "liked") or
 (current_status == "disliked" and status not in ["liked", "disliked"])`. -/
def add_qa_blocked (current_status status : String) : Bool :=
  (current_status == "liked" && status != "liked") ||
  (current_status == "disliked" && status != "liked" && status != "disliked")

/-- `QACacheManager.add_qa`.  Returns the updated `questions` list and the
boolean result (`True` only for a brand-new insertion).  Python keyword
defaults: `status="generated"`, `sql_info={}`. -/
def add_qa (md5 : String → String) (now : String) (cache : List QAItem)
    (qa_pair : QAInput) (status : String := "generated")
    (sql_info : SqlInfo := []) : List QAItem × Bool :=
  let qa_id :=
    match qa_pair.qa_id with
    | Option.some i => if i = "" then generate_qa_id md5 qa_pair else i
    | Option.none => generate_qa_id md5 qa_pair
  let store := qa_data_to_store now qa_id qa_pair status sql_info
  match find_qa_index qa_id cache with
  | Option.some i =>
    match cache[i]? with
    | Option.some q0 =>
      if add_qa_blocked q0.status status then (cache, false)
      else (cache.set i store, false)
    | Option.none => (cache, false)
  | Option.none => (cache ++ [store], true)

/-- The statuses `add_qa` documents: liked / disliked / generated. -/
def VALID_STATUSES : List String := ["generated", "liked", "disliked"]

/-- The priority order the spec assigns: liked(2) > disliked(1) > generated(0). -/
def status_priority (s : String) : Nat :=
  if s = "liked" then 2 else if s = "disliked" then 1 else 0

/-- The `difficulty_rank.get(x.get("difficulty"), 3)` lookup used by
`get_exportable_qas` (missing or unknown difficulty ranks as 3). -/
def difficulty_rank_get (d : Option String) : Nat :=
  match d with
  | Option.some "hard" => 2
  | Option.some "medium" => 1
  | Option.some "easy" => 0
  | _ => 3

/-- `QACacheManager.get_exportable_qas`: filter to status liked/generated,
then Python `sorted` ascending by the difficulty rank (and nothing else). -/
def get_exportable_qas (cache : List QAItem) : List QAItem :=
  let exportable_qas :=
    cache.filter (fun qa => qa.status == "liked" || qa.status == "generated")
  pySorted
    (fun a b =>
      decide (difficulty_rank_get a.difficulty ≤ difficulty_rank_get b.difficulty))
    exportable_qas

/-- The sort key of `QACacheManager.save_cache`:
`(difficulty_rank.get(q.get("difficulty", "easy"), 3), q.get("timestamp", ""))`,
compared as a Python tuple (lexicographically). -/
def save_cache_le (a b : QAItem) : Bool :=
  let ra := difficulty_rank_get (Option.some (a.difficulty.getD "easy"))
  let rb := difficulty_rank_get (Option.some (b.difficulty.getD "easy"))
  ra < rb || (ra == rb && decide (a.timestamp ≤ b.timestamp))

/-- The in-place `questions.sort(...)` performed by `save_cache` before
writing the file. -/
def save_cache_sorted (cache : List QAItem) : List QAItem :=
  pySorted save_cache_le cache

/-! ### Cache lemmas -/

theorem add_qa_blocked_iff (cur st : String)
    (hc : cur ∈ VALID_STATUSES) (hs : st ∈ VALID_STATUSES) :
    add_qa_blocked cur st = true ↔ status_priority st < status_priority cur := by
  simp only [VALID_STATUSES, List.mem_cons, List.mem_singleton,
    List.not_mem_nil, or_false] at hc hs
  rcases hc with rfl | rfl | rfl <;> rcases hs with rfl | rfl | rfl <;> decide

theorem add_qa_empty (md5 : String → String) (now : String) (qa : QAInput)
    (st : String) (si : SqlInfo) (i : String)
    (hid : qa.qa_id = Option.some i) (hi : i ≠ "") :
    add_qa md5 now [] qa st si = ([qa_data_to_store now i qa st si], true) := by
  simp [add_qa, hid, hi, find_qa_index]

theorem add_qa_single (md5 : String → String) (now : String) (item : QAItem)
    (qa : QAInput) (st : String) (si : SqlInfo) (i : String)
    (hid : qa.qa_id = Option.some i) (hi : i ≠ "") (hitem : item.qa_id = i) :
    add_qa md5 now [item] qa st si =
      if add_qa_blocked item.status st then ([item], false)
      else ([qa_data_to_store now i qa st si], false) := by
  simp only [add_qa, hid, hi, if_neg, find_qa_index, hitem, if_pos]
  by_cases hb : add_qa_blocked item.status st <;> simp [hb]

theorem add_qa_fold_invariant (md5 : String → String) (now : String)
    (i : String) (hi : i ≠ "") :
    ∀ (calls : List (QAInput × String)) (item : QAItem),
      (∀ c ∈ calls, c.1.qa_id = Option.some i) →
      (∀ c ∈ calls, c.2 ∈ VALID_STATUSES) →
      item.qa_id = i → item.status ∈ VALID_STATUSES →
      ∃ fin : QAItem,
        calls.foldl (fun c p => (add_qa md5 now c p.1 p.2 []).1) [item] = [fin] ∧
        fin.qa_id = i ∧ fin.status ∈ VALID_STATUSES ∧
        status_priority item.status ≤ status_priority fin.status ∧
        (fin.status = item.status ∨ fin.status ∈ calls.map Prod.snd) ∧
        (∀ c ∈ calls, status_priority c.2 ≤ status_priority fin.status) := by
  intro calls
  induction calls with
  | nil =>
    intro item _ _ hqa hst
    exact ⟨item, rfl, hqa, hst, le_refl _, Or.inl rfl, by simp⟩
  | cons c rest ih =>
    intro item hids hsts hqa hst
    have hcid : c.1.qa_id = Option.some i := hids c (by simp)
    have hcst : c.2 ∈ VALID_STATUSES := hsts c (by simp)
    have hstep := add_qa_single md5 now item c.1 c.2 [] i hcid hi hqa
    by_cases hb : add_qa_blocked item.status c.2
    · -- the incoming status is rejected; the item survives unchanged
      have hlt : status_priority c.2 < status_priority item.status :=
        (add_qa_blocked_iff item.status c.2 hst hcst).1 hb
      rcases ih item (fun d hd => hids d (by simp [hd]))
          (fun d hd => hsts d (by simp [hd])) hqa hst with
        ⟨fin, hfold, h1, h2, h3, h4, h5⟩
      refine ⟨fin, ?_, h1, h2, h3, ?_, ?_⟩
      · simpa [hstep, hb] using hfold
      · rcases h4 with h4 | h4
        · exact Or.inl h4
        · exact Or.inr (by simp [h4])
      · intro d hd
        rcases List.mem_cons.1 hd with rfl | hd
        · exact le_trans (le_of_lt hlt) h3
        · exact h5 d hd
    · -- the incoming record overwrites the item
      have hnew : (qa_data_to_store now i c.1 c.2 []).qa_id = i := rfl
      have hnewst : (qa_data_to_store now i c.1 c.2 []).status = c.2 := rfl
      have hge : status_priority item.status ≤ status_priority c.2 := by
        by_contra hcon
        exact hb ((add_qa_blocked_iff item.status c.2 hst hcst).2 (by omega))
      rcases ih (qa_data_to_store now i c.1 c.2 [])
          (fun d hd => hids d (by simp [hd]))
          (fun d hd => hsts d (by simp [hd])) hnew (by rw [hnewst]; exact hcst) with
        ⟨fin, hfold, h1, h2, h3, h4, h5⟩
      rw [hnewst] at h3
      refine ⟨fin, ?_, h1, h2, le_trans hge h3, ?_, ?_⟩
      · simpa [hstep, hb] using hfold
      · rcases h4 with h4 | h4
        · exact Or.inr (by rw [hnewst] at h4; simp [h4])
        · exact Or.inr (by simp [h4])
      · intro d hd
        rcases List.mem_cons.1 hd with rfl | hd
        · exact h3
        · exact h5 d hd

/-- C1: for any sequence of `add_qa` upserts targeting one `qa_id` with
statuses drawn from generated/liked/disliked, the stored status after the
last call is the highest-priority status ever upserted (liked 2 > disliked 1
> generated 0), in any arrival order; and an upsert whose status has strictly
lower priority than the existing item's status leaves the cache unchanged and
returns `false`. -/
theorem add_qa_status_priority_monotone :
    (∀ (md5 : String → String) (now i : String), i ≠ "" →
      ∀ calls : List (QAInput × String), calls ≠ [] →
        (∀ c ∈ calls, c.1.qa_id = Option.some i) →
        (∀ c ∈ calls, c.2 ∈ VALID_STATUSES) →
        ∃ fin : QAItem,
          calls.foldl (fun c p => (add_qa md5 now c p.1 p.2 []).1) [] = [fin] ∧
          fin.qa_id = i ∧ fin.status ∈ calls.map Prod.snd ∧
          (∀ c ∈ calls, status_priority c.2 ≤ status_priority fin.status)) ∧
    (∀ (md5 : String → String) (now i : String) (cache : List QAItem)
        (qa : QAInput) (st : String) (si : SqlInfo) (j : Nat) (q0 : QAItem),
      qa.qa_id = Option.some i → i ≠ "" →
      find_qa_index i cache = Option.some j → cache[j]? = Option.some q0 →
      q0.status ∈ VALID_STATUSES → st ∈ VALID_STATUSES →
      status_priority st < status_priority q0.status →
      add_qa md5 now cache qa st si = (cache, false)) := by
  constructor
  · intro md5 now i hi calls hne hids hsts
    rcases calls with _ | ⟨c, rest⟩
    · exact absurd rfl hne
    have hcid : c.1.qa_id = Option.some i := hids c (by simp)
    have hcst : c.2 ∈ VALID_STATUSES := hsts c (by simp)
    have h0 := add_qa_empty md5 now c.1 c.2 [] i hcid hi
    rcases add_qa_fold_invariant md5 now i hi rest
        (qa_data_to_store now i c.1 c.2 [])
        (fun d hd => hids d (by simp [hd]))
        (fun d hd => hsts d (by simp [hd])) rfl hcst with
      ⟨fin, hfold, h1, _, h3, h4, h5⟩
    have hst0 : (qa_data_to_store now i c.1 c.2 []).status = c.2 := rfl
    refine ⟨fin, ?_, h1, ?_, ?_⟩
    · simpa [h0] using hfold
    · rcases h4 with h4 | h4
      · rw [hst0] at h4; simp [h4]
      · simp [h4]
    · intro d hd
      rcases List.mem_cons.1 hd with rfl | hd
      · rw [hst0] at h3; exact h3
      · exact h5 d hd
  · intro md5 now i cache qa st si j q0 hid hi hfind hget hq0 hst hlt
    have hb : add_qa_blocked q0.status st = true :=
      (add_qa_blocked_iff q0.status st hq0 hst).2 hlt
    simp [add_qa, hid, hi, hfind, hget, hb]

/-- Concrete witness input for C1. -/
def c1_input : QAInput := { qa_id := Option.some "q1" }

theorem add_qa_status_priority_monotone_witness :
    (∃ fin : QAItem,
      ([(c1_input, "liked"), (c1_input, "generated")].foldl
          (fun c p => (add_qa (fun _ => "h") "t" c p.1 p.2 []).1) []) = [fin] ∧
      fin.qa_id = "q1" ∧
      fin.status ∈ [(c1_input, "liked"), (c1_input, "generated")].map Prod.snd ∧
      (∀ c ∈ [(c1_input, "liked"), (c1_input, "generated")],
        status_priority c.2 ≤ status_priority fin.status)) ∧
    0 < status_priority "liked" := by
  refine ⟨?_, by decide⟩
  exact add_qa_status_priority_monotone.1 (fun _ => "h") "t" "q1" (by decide)
    [(c1_input, "liked"), (c1_input, "generated")] (by simp)
    (by intro c hc; rcases List.mem_cons.1 hc with rfl | hc <;> simp_all [c1_input])
    (by intro c hc; rcases List.mem_cons.1 hc with rfl | hc <;>
      simp_all [VALID_STATUSES])

/-! ### C2 / C4: export filtering and ordering -/

/-- The ordering the spec claims for `get_exportable_qas`: difficulty
descending (hard before medium before easy) and, within equal difficulty,
timestamp ascending. -/
def export_ordering_claim (cache : List QAItem) : Prop :=
  (get_exportable_qas cache).Pairwise (fun a b =>
    difficulty_rank_get b.difficulty ≤ difficulty_rank_get a.difficulty ∧
    (difficulty_rank_get a.difficulty = difficulty_rank_get b.difficulty →
      a.timestamp ≤ b.timestamp))

/-- An easy item with the later timestamp, inserted before a hard one. -/
def c2_item_easy : QAItem :=
  { qa_id := "e", question_text := Option.none, answer_text := PyVal.none,
    evidence := Option.none, conversation_id := Option.none,
    session_ids := Option.none, timestamp := "2024-01-02T00:00:00",
    difficulty := Option.some "easy", status := "generated", sql_info := [] }

/-- A hard item with the earlier timestamp. -/
def c2_item_hard : QAItem :=
  { qa_id := "h", question_text := Option.none, answer_text := PyVal.none,
    evidence := Option.none, conversation_id := Option.none,
    session_ids := Option.none, timestamp := "2024-01-01T00:00:00",
    difficulty := Option.some "hard", status := "generated", sql_info := [] }

/-- C2 counterexample: on a cache holding an easy and a hard item,
`get_exportable_qas` returns the easy item first (ascending rank), so the
claimed hard-medium-easy descending order with timestamp tie-break is false. -/
theorem get_exportable_qas_descending_counterexample :
    ¬ export_ordering_claim [c2_item_easy, c2_item_hard] := by
  unfold export_ordering_claim
  decide

/-- C2 amended: `get_exportable_qas` returns exactly the liked/generated
items sorted by difficulty rank ascending (easy 0, medium 1, hard 2, unknown
or missing difficulty 3 last); it does not consult timestamps.  `save_cache`,
separately, sorts the stored questions by difficulty rank ascending (with
missing difficulty defaulting to easy) and then by timestamp ascending. -/
theorem get_exportable_qas_ordering_amended :
    ∀ cache : List QAItem,
      List.Perm (get_exportable_qas cache)
        (cache.filter (fun qa => qa.status == "liked" || qa.status == "generated")) ∧
      (get_exportable_qas cache).Pairwise (fun a b =>
        difficulty_rank_get a.difficulty ≤ difficulty_rank_get b.difficulty) ∧
      (save_cache_sorted cache).Pairwise (fun a b =>
        difficulty_rank_get (Option.some (a.difficulty.getD "easy")) <
          difficulty_rank_get (Option.some (b.difficulty.getD "easy")) ∨
        (difficulty_rank_get (Option.some (a.difficulty.getD "easy")) =
          difficulty_rank_get (Option.some (b.difficulty.getD "easy")) ∧
          a.timestamp ≤ b.timestamp)) := by
  intro cache
  refine ⟨pySorted_perm _ _, ?_, ?_⟩
  · have h := pairwise_pySorted
      (fun a b : QAItem =>
        decide (difficulty_rank_get a.difficulty ≤ difficulty_rank_get b.difficulty))
      (by intro x y; simp [Nat.le_total])
      (by intro x y z hxy hyz; simp only [decide_eq_true_eq] at hxy hyz ⊢;
          omega)
      (cache.filter (fun qa => qa.status == "liked" || qa.status == "generated"))
    exact h.imp (by intro a b hab; simpa using hab)
  · have h := pairwise_pySorted save_cache_le
      (by
        intro x y
        simp only [save_cache_le, Bool.or_eq_true, Bool.and_eq_true,
          decide_eq_true_eq, beq_iff_eq, Nat.lt_iff_add_one_le]
        rcases Nat.lt_trichotomy
            (difficulty_rank_get (Option.some (x.difficulty.getD "easy")))
            (difficulty_rank_get (Option.some (y.difficulty.getD "easy"))) with
          h | h | h
        · left; left; omega
        · rcases le_total x.timestamp y.timestamp with ht | ht
          · left; right; exact ⟨h, ht⟩
          · right; right; exact ⟨h.symm, ht⟩
        · right; left; omega)
      (by
        intro x y z hxy hyz
        simp only [save_cache_le, Bool.or_eq_true, Bool.and_eq_true,
          decide_eq_true_eq, beq_iff_eq] at hxy hyz ⊢
        rcases hxy with h1 | ⟨h1, h1t⟩ <;> rcases hyz with h2 | ⟨h2, h2t⟩
        · left; omega
        · left; omega
        · left; omega
        · right; exact ⟨h1.trans h2, le_trans h1t h2t⟩)
      cache
    exact h.imp (by
      intro a b hab
      simp only [save_cache_le, Bool.or_eq_true, Bool.and_eq_true,
        decide_eq_true_eq, beq_iff_eq] at hab
      exact hab)

/-- C4: an item appears in the `get_exportable_qas` output iff it is in the
cache with status liked or generated; disliked items never appear. -/
theorem get_exportable_qas_filter_iff :
    ∀ (cache : List QAItem) (qa : QAItem),
      qa ∈ get_exportable_qas cache ↔
        qa ∈ cache ∧ (qa.status = "liked" ∨ qa.status = "generated") := by
  intro cache qa
  unfold get_exportable_qas
  rw [(pySorted_perm _ _).mem_iff]
  simp [List.mem_filter]

/-! ### C10: an accepted re-upsert erases the stored validation record -/

/-- C10: whenever `add_qa` accepts an update of an existing `qa_id` (the
status-priority guard does not fire), the stored record is rebuilt entirely
from the incoming `qa_pair` and the call's `sql_info` argument, which
defaults to the empty dict — so an accepted re-upsert that does not pass
`sql_info` (as `_generate_single_qa` does) erases the item's stored
validation record. -/
theorem add_qa_overwrites_sql_info :
    ∀ (md5 : String → String) (now : String) (cache : List QAItem)
      (qa : QAInput) (st i : String) (j : Nat) (q0 : QAItem),
      qa.qa_id = Option.some i → i ≠ "" →
      find_qa_index i cache = Option.some j → cache[j]? = Option.some q0 →
      add_qa_blocked q0.status st = false →
      add_qa md5 now cache qa st =
        (cache.set j (qa_data_to_store now i qa st []), false) ∧
      (qa_data_to_store now i qa st []).sql_info = [] ∧
      (qa_data_to_store now i qa st []).question_text = qa.question_text ∧
      (qa_data_to_store now i qa st []).answer_text = qa.answer_text ∧
      (qa_data_to_store now i qa st []).evidence = qa.evidence ∧
      (qa_data_to_store now i qa st []).session_ids = qa.session_ids ∧
      (qa_data_to_store now i qa st []).status = st := by
  intro md5 now cache qa st i j q0 hid hi hfind hget hb
  refine ⟨?_, rfl, rfl, rfl, rfl, rfl, rfl⟩
  simp [add_qa, hid, hi, hfind, hget, hb]

/-- A previously validated stored item for the C10 witness. -/
def c10_stored : QAItem :=
  { qa_id := "q1", question_text := Option.some "How much in total?",
    answer_text := PyVal.float 5, evidence := Option.none,
    conversation_id := Option.none, session_ids := Option.none,
    timestamp := "2024-01-01T00:00:00", difficulty := Option.some "easy",
    status := "generated",
    sql_info := [("sql_status", PyVal.str "match")] }

/-- The same QA regenerated and re-upserted without `sql_info`. -/
def c10_input : QAInput :=
  { qa_id := Option.some "q1",
    question_text := Option.some "How much in total?",
    answer_text := PyVal.float 5,
    timestamp := Option.some "2024-01-02T00:00:00",
    difficulty := Option.some "easy" }

theorem add_qa_overwrites_sql_info_witness :
    add_qa (fun _ => "h") "t" [c10_stored] c10_input "generated" =
      ([qa_data_to_store "t" "q1" c10_input "generated" []], false) ∧
    (qa_data_to_store "t" "q1" c10_input "generated" []).sql_info = [] ∧
    c10_stored.sql_info = [("sql_status", PyVal.str "match")] := by
  have h := add_qa_overwrites_sql_info (fun _ => "h") "t" [c10_stored]
    c10_input "generated" "q1" 0 c10_stored rfl (by decide) (by rfl) rfl (by rfl)
  exact ⟨h.1, h.2.1, rfl⟩

/-! ### Character-list string primitives.  The corresponding core `String`
functions are implemented by well-founded recursion on byte positions and do
not reduce in the kernel, so the embedding re-implements them structurally
over `List Char`; they compute the same functions. -/

/-- Leading-whitespace strip. -/
def chTrimLeft (cs : List Char) : List Char := cs.dropWhile Char.isWhitespace

/-- Python `str.strip()`. -/
def chTrim (cs : List Char) : List Char :=
  ((chTrimLeft cs).reverse.dropWhile Char.isWhitespace).reverse

/-- Python `str.strip()` on `String`. -/
def pyStrip (s : String) : String := String.mk (chTrim s.data)

/-- Python `str.lower()` on `String`. -/
def pyLower (s : String) : String := String.mk (s.data.map Char.toLower)

/-- Split on a separator character (mirrors `str.split` at one-char
separators; the separators are dropped). -/
def splitOnChar (sep : Char) : List Char → List (List Char)
  | [] => [[]]
  | c :: cs =>
    if c = sep then [] :: splitOnChar sep cs
    else
      match splitOnChar sep cs with
      | t :: ts => (c :: t) :: ts
      | [] => [[c]]

/-- Python `sub in s` (substring containment). -/
def chContains (sub : List Char) : List Char → Bool
  | [] => sub.isEmpty
  | c :: cs => sub.isPrefixOf (c :: cs) || chContains sub cs

/-- Split at the first colon, if any. -/
def splitAtColon : List Char → Option (List Char × List Char)
  | [] => Option.none
  | c :: cs =>
    if c = ':' then Option.some ([], cs)
    else (splitAtColon cs).map (fun p => (c :: p.1, p.2))

/-- Lexicographic strict order on character lists (Python string `<`:
code-point lexicographic). -/
def chLt : List Char → List Char → Bool
  | [], [] => false
  | [], _ :: _ => true
  | _ :: _, [] => false
  | a :: as, b :: bs => decide (a < b) || (a == b && chLt as bs)

/-- Python string `<` as a computable comparison. -/
def strLtb (a b : String) : Bool := chLt a.data b.data

/-! ### Number parsing (the regex heuristics of validator.py and
question_generator.py, modelled as leftmost-longest scans) -/

/-- Maximal run of decimal digits at the front. -/
def takeDigits : List Char → List Char × List Char
  | [] => ([], [])
  | c :: cs =>
    if c.isDigit then
      let (d, r) := takeDigits cs
      (c :: d, r)
    else ([], c :: cs)

/-- Value of a digit run. -/
def digitsVal (ds : List Char) : Nat :=
  ds.foldl (fun a c => a * 10 + (c.toNat - 48)) 0

/-- Match of `[-+]?\d*\.?\d+` anchored at the front (the number group of the
`validator.py` regexes); returns the value and the remaining input. -/
def matchNumR2 (cs : List Char) : Option (Rat × List Char) :=
  let (sign, cs1) : Rat × List Char :=
    match cs with
    | '-' :: r => (-1, r)
    | '+' :: r => (1, r)
    | _ => (1, cs)
  let (ip, cs2) := takeDigits cs1
  match cs2 with
  | '.' :: cs3 =>
    let (fp, cs4) := takeDigits cs3
    if fp.isEmpty then
      if ip.isEmpty then Option.none
      else Option.some (sign * digitsVal ip, cs2)
    else
      Option.some
        (sign * ((digitsVal ip : Rat) + (digitsVal fp : Rat) / (10 : Rat) ^ fp.length),
          cs4)
  | _ =>
    if ip.isEmpty then Option.none else Option.some (sign * digitsVal ip, cs2)

/-- `\s*` -/
def dropSpaces : List Char → List Char
  | [] => []
  | c :: cs => if c.isWhitespace then dropSpaces cs else c :: cs

/-- `re.search(r'([-+]?\d*\.?\d+)\s*UNIT', value)`: leftmost number directly
followed (modulo whitespace) by the given unit suffix. -/
def searchUnitNum (unit : List Char) : List Char → Option Rat
  | [] => Option.none
  | c :: cs =>
    match matchNumR2 (c :: cs) with
    | Option.some (q, rest) =>
      if unit.isPrefixOf (dropSpaces rest) then Option.some q
      else searchUnitNum unit cs
    | Option.none => searchUnitNum unit cs

/-- `re.search(r'([-+]?\d*\.?\d+)', value)`: leftmost number. -/
def searchNumR2 : List Char → Option Rat
  | [] => Option.none
  | c :: cs =>
    match matchNumR2 (c :: cs) with
    | Option.some (q, _) => Option.some q
    | Option.none => searchNumR2 cs

/-- Match of `-?\d+(?:\.\d+)?` anchored at the front (the answer-extraction
regex of `_parse_llm_response`). -/
def matchNumR1 (cs : List Char) : Option Rat :=
  let (sign, cs1) : Rat × List Char :=
    match cs with
    | '-' :: r => (-1, r)
    | _ => (1, cs)
  let (ip, cs2) := takeDigits cs1
  if ip.isEmpty then Option.none
  else
    match cs2 with
    | '.' :: cs3 =>
      let (fp, _) := takeDigits cs3
      if fp.isEmpty then Option.some (sign * digitsVal ip)
      else
        Option.some
          (sign * ((digitsVal ip : Rat) + (digitsVal fp : Rat) / (10 : Rat) ^ fp.length))
    | _ => Option.some (sign * digitsVal ip)

/-- `re.search(r'-?\d+(?:\.\d+)?', answer_text)`: leftmost signed decimal. -/
def searchNumR1 : List Char → Option Rat
  | [] => Option.none
  | c :: cs =>
    match matchNumR1 (c :: cs) with
    | Option.some q => Option.some q
    | Option.none => searchNumR1 cs

/-- Python `float(string)`: strict full-string parse
(`[+-]? (digits [. digits?] | . digits) ([eE] [+-]? digits)?`). -/
def pyFloatParse (s : String) : Option Rat :=
  let cs := chTrim s.data
  let (sign, cs1) : Rat × List Char :=
    match cs with
    | '-' :: r => (-1, r)
    | '+' :: r => (1, r)
    | _ => (1, cs)
  let (ip, cs2) := takeDigits cs1
  let mant : Option (Rat × List Char) :=
    match cs2 with
    | '.' :: cs3 =>
      let (fp, cs4) := takeDigits cs3
      if ip.isEmpty ∧ fp.isEmpty then Option.none
      else
        Option.some
          ((digitsVal ip : Rat) + (digitsVal fp : Rat) / (10 : Rat) ^ fp.length, cs4)
    | _ => if ip.isEmpty then Option.none else Option.some ((digitsVal ip : Rat), cs2)
  match mant with
  | Option.none => Option.none
  | Option.some (m, rest) =>
    match rest with
    | [] => Option.some (sign * m)
    | e :: rest2 =>
      if e = 'e' ∨ e = 'E' then
        let (esign, rest3) : Bool × List Char :=
          match rest2 with
          | '-' :: r => (true, r)
          | '+' :: r => (false, r)
          | _ => (false, rest2)
        let (ed, rest4) := takeDigits rest3
        if ed.isEmpty ∨ ¬ rest4.isEmpty then Option.none
        else
          let k := digitsVal ed
          Option.some (sign * m * (if esign then ((10 : Rat) ^ k)⁻¹ else (10 : Rat) ^ k))
      else Option.none

/-! ### Validator (src/utils/validator.py) -/

/-- Python `float(x)` on a dynamic value (`bool` is an `int` subclass). -/
def pyFloatOf : PyVal → Except PyError Rat
  | PyVal.bool b => Except.ok (if b then 1 else 0)
  | PyVal.int n => Except.ok (n : Rat)
  | PyVal.float q => Except.ok q
  | PyVal.str s =>
    match pyFloatParse s with
    | Option.some q => Except.ok q
    | Option.none => Except.error (PyError.valueError "could not convert string to float")
  | PyVal.none => Except.error (PyError.typeError "float() argument")
  | PyVal.list _ => Except.error (PyError.typeError "float() argument")
  | PyVal.dict _ => Except.error (PyError.typeError "float() argument")

/-- `math.isclose(a, b, rel_tol=1e-9)` (with the default `abs_tol=0.0`). -/
def isclose (a b : Rat) : Bool :=
  decide (|a - b| ≤ max ((1 : Rat) / 10 ^ 9 * max |a| |b|) 0)

/-- `Validator.compare_answers`: numeric comparison under relative tolerance
1e-9, falling back to trimmed-string equality when either conversion fails. -/
def compare_answers (a1 a2 : PyVal) : Bool :=
  match pyFloatOf a1, pyFloatOf a2 with
  | Except.ok n1, Except.ok n2 => isclose n1 n2
  | _, _ => pyStrip (pyStr a1) == pyStrip (pyStr a2)

/-- `"sub" in s` (Python substring containment). -/
def strContains (s sub : String) : Bool := chContains sub.data s.data

/-- `Validator._standardize_value`. -/
def _standardize_value (value : PyVal) (col_name : String := "") : String :=
  match value with
  | PyVal.none => "None"
  | PyVal.str s0 =>
    let v := pyStrip s0
    if strContains col_name "日期" ∨ (v.length = 8 ∧ v.data.all Char.isDigit) then v
    else
      match searchUnitNum "亿元".data v.data with
      | Option.some q => pyFloatStr (q * 100000000)
      | Option.none =>
        match searchUnitNum "万元".data v.data with
        | Option.some q => pyFloatStr (q * 10000)
        | Option.none =>
          match searchNumR2 v.data with
          | Option.some q => pyFloatStr q
          | Option.none => v
  | PyVal.bool b => pyFloatStr (if b then 1 else 0)
  | PyVal.int n => pyFloatStr (n : Rat)
  | PyVal.float q => pyFloatStr q
  | v => pyStrip (pyStr v)

/-- A normalized evidence entry
`(identifier_key, identifier_value, normalized_column_name, standardized_value)`. -/
abbrev NormEntry := Option String × Option String × String × String

/-- Split one `col: value` part at its first colon
(`re.match(r'^(.*?)\s*:\s*(.*)$', part)`), both sides stripped. -/
def splitFirstColon (part : String) : Option (String × String) :=
  match splitAtColon part.data with
  | Option.some (pre, post) =>
    Option.some (pyStrip (String.mk pre), pyStrip (String.mk post))
  | Option.none => Option.none

/-- The identifier match on the first part:
`re.match(r'^(股票简称|股票代码)\s*:\s*(.+)$', parts[0])`. -/
def matchIdentifier (p : String) : Option (String × String) :=
  let tryKey (key : String) : Option (String × String) :=
    if key.data.isPrefixOf p.data then
      match chTrimLeft (p.data.drop key.data.length) with
      | ':' :: r =>
        if r = [] then Option.none
        else Option.some (key, pyStrip (String.mk r))
      | _ => Option.none
    else Option.none
  match tryKey "股票简称" with
  | Option.some kv => Option.some kv
  | Option.none => tryKey "股票代码"

/-- `Validator._normalize_and_split_llm_evidence`: splits an evidence string
on `;`, pulls a leading stock identifier, and turns the remaining `col: val`
parts into normalized entries.  `parts[0]` on a whitespace-only string raises
`IndexError`, as in Python. -/
def _normalize_and_split_llm_evidence (evidence_str : String) :
    Except PyError (List NormEntry) :=
  let parts :=
    ((splitOnChar ';' evidence_str.data).map (fun cs => pyStrip (String.mk cs))).filter
      (fun p => p ≠ "")
  match parts with
  | [] => Except.error (PyError.indexError "list index out of range")
  | p0 :: prest =>
    let (identifier_key, identifier_value, remaining_parts) :
        Option String × Option String × List String :=
      match matchIdentifier p0 with
      | Option.some (k, v) => (Option.some (pyLower k), Option.some v, prest)
      | Option.none => (Option.none, Option.none, p0 :: prest)
    Except.ok <| remaining_parts.filterMap fun part =>
      match splitFirstColon part with
      | Option.some (col_name_raw, val_raw) =>
        Option.some
          (identifier_key, identifier_value, pyLower col_name_raw,
            _standardize_value (PyVal.str val_raw) col_name_raw)
      | Option.none => Option.none

/-- `{k.lower(): k for k in row_dict.keys()}[key]` — the last original key
whose lowercase form matches (later dict entries overwrite earlier ones). -/
def lowerKeyLookup (row : List (String × PyVal)) (key : String) : Option String :=
  row.foldl (fun acc kv => if pyLower kv.1 = key then Option.some kv.1 else acc)
    Option.none

/-- `row_dict[key]`. -/
def dictGet (row : List (String × PyVal)) (key : String) : Option PyVal :=
  (row.find? (fun kv => kv.1 == key)).map (·.2)

/-- Normalization of one SQL evidence row, given the LLM's primary
identifier key: resolve the per-row identifier (primary key, falling back to
股票简称 then 股票代码; rows with neither are skipped), then emit one entry per
non-identifier column, merging 资金流向 with a sibling 日期 column. -/
def sql_row_entries (llm_primary_id_key : String) (row : List (String × PyVal)) :
    List NormEntry :=
  let pk : Option (String × String) :=
    match lowerKeyLookup row llm_primary_id_key with
    | Option.some ok => Option.some (ok, pyStr ((dictGet row ok).getD PyVal.none))
    | Option.none =>
      match lowerKeyLookup row "股票简称" with
      | Option.some ok => Option.some (ok, pyStr ((dictGet row ok).getD PyVal.none))
      | Option.none =>
        match lowerKeyLookup row "股票代码" with
        | Option.some ok => Option.some (ok, pyStr ((dictGet row ok).getD PyVal.none))
        | Option.none => Option.none
  match pk with
  | Option.none => []
  | Option.some (pk_col_raw, pk_val_raw) =>
    let pk_col_norm := pyLower pk_col_raw
    let pk_val_norm := pyStrip pk_val_raw
    row.filterMap fun kv =>
      if pyLower kv.1 = "股票简称" ∨ pyLower kv.1 = "股票代码" then Option.none
      else
        let standardized_sql_val := _standardize_value kv.2 kv.1
        if pyLower kv.1 = "资金流向" ∧ (lowerKeyLookup row "日期").isSome then
          let dateKey := (lowerKeyLookup row "日期").getD ""
          let date_val := pyStrip (pyStr ((dictGet row dateKey).getD PyVal.none))
          Option.some
            (Option.some pk_col_norm, Option.some pk_val_norm,
              pyLower ("资金流向[" ++ date_val ++ "]"), standardized_sql_val)
        else if pyLower kv.1 = "日期" ∧ (lowerKeyLookup row "资金流向").isSome then
          Option.none
        else
          Option.some
            (Option.some pk_col_norm, Option.some pk_val_norm, pyLower kv.1,
              standardized_sql_val)

/-- All normalized SQL entries, row by row. -/
def sql_normalized (llm_primary_id_key : String)
    (sql_evidence_raw : List (List (String × PyVal))) : List NormEntry :=
  (sql_evidence_raw.map (sql_row_entries llm_primary_id_key)).flatten

/-- The `evidence_sort_key` of `compare_evidence` (None sorts as ""). -/
def evidence_sort_key (e : NormEntry) : String × String × String × String :=
  (e.1.getD "", e.2.1.getD "", e.2.2.1, e.2.2.2)

/-- Python string `<=`. -/
def strLeb (a b : String) : Bool := strLtb a b || a == b

/-- One step of Python tuple comparison: strict on the head, then the tail. -/
def lexCons [BEq α] (ltH : α → α → Bool) (leT : β → β → Bool)
    (x y : α × β) : Bool :=
  ltH x.1 y.1 || (x.1 == y.1 && leT x.2 y.2)

/-- Python tuple comparison (lexicographic) on the 4-tuple sort keys. -/
def lex4_le : (String × String × String × String) →
    (String × String × String × String) → Bool :=
  lexCons strLtb (lexCons strLtb (lexCons strLtb strLeb))

/-- Entry comparison used by `sorted(..., key=evidence_sort_key)`. -/
def norm_entry_le (a b : NormEntry) : Bool :=
  lex4_le (evidence_sort_key a) (evidence_sort_key b)

/-- The llm-side normalization: all entries of all strings, in order. -/
def llm_normalized (llm_evidence : List String) :
    Except PyError (List NormEntry) :=
  (llm_evidence.mapM _normalize_and_split_llm_evidence).map List.flatten

/-- The primary identifier chosen from the first normalized LLM entry, with
the fallback to 股票简称 for unrecognized or missing identifiers. -/
def llm_primary (entries : List NormEntry) : String :=
  match entries with
  | [] => "股票简称"
  | e :: _ =>
    match e.1 with
    | Option.some k => if k = "股票简称" ∨ k = "股票代码" then k else "股票简称"
    | Option.none => "股票简称"

/-- `Validator.compare_evidence`.  An exception raised while normalizing an
LLM evidence string propagates (`Except.error`). -/
def compare_evidence (llm_evidence : List String)
    (sql_evidence_raw : List (List (String × PyVal))) : Except PyError Bool :=
  match llm_normalized llm_evidence with
  | Except.error e => Except.error e
  | Except.ok normalized_llm_entries =>
    if normalized_llm_entries.isEmpty then
      Except.ok sql_evidence_raw.isEmpty
    else
      let llm_primary_id_key := llm_primary normalized_llm_entries
      let normalized_sql_entries := sql_normalized llm_primary_id_key sql_evidence_raw
      let sorted_llm_entries := pySorted norm_entry_le normalized_llm_entries
      let sorted_sql_entries := pySorted norm_entry_le normalized_sql_entries
      Except.ok (decide (sorted_llm_entries = sorted_sql_entries))

/-! ### Order lemmas for the evidence sort keys -/

theorem chLt_trans : ∀ as bs cs : List Char,
    chLt as bs = true → chLt bs cs = true → chLt as cs = true := by
  intro as
  induction as with
  | nil =>
    intro bs cs h1 h2
    cases bs with
    | nil => simp [chLt] at h1
    | cons b bs =>
      cases cs with
      | nil => simp [chLt] at h2
      | cons c cs => simp [chLt]
  | cons a as ih =>
    intro bs cs h1 h2
    cases bs with
    | nil => simp [chLt] at h1
    | cons b bs =>
      cases cs with
      | nil => simp [chLt] at h2
      | cons c cs =>
        simp only [chLt, Bool.or_eq_true, Bool.and_eq_true, decide_eq_true_eq,
          beq_iff_eq] at h1 h2 ⊢
        rcases h1 with h1 | ⟨e1, t1⟩ <;> rcases h2 with h2 | ⟨e2, t2⟩
        · exact Or.inl (lt_trans h1 h2)
        · exact Or.inl (by rw [← e2]; exact h1)
        · exact Or.inl (by rw [e1]; exact h2)
        · exact Or.inr ⟨e1.trans e2, ih bs cs t1 t2⟩

theorem chLt_asymm : ∀ as bs : List Char,
    chLt as bs = true → chLt bs as = true → False := by
  intro as
  induction as with
  | nil =>
    intro bs h1 h2
    cases bs with
    | nil => simp [chLt] at h1
    | cons b bs => simp [chLt] at h2
  | cons a as ih =>
    intro bs h1 h2
    cases bs with
    | nil => simp [chLt] at h1
    | cons b bs =>
      simp only [chLt, Bool.or_eq_true, Bool.and_eq_true, decide_eq_true_eq,
        beq_iff_eq] at h1 h2
      rcases h1 with h1 | ⟨e1, t1⟩ <;> rcases h2 with h2 | ⟨e2, t2⟩
      · exact absurd h2 (lt_asymm h1)
      · rw [e2] at h1; exact lt_irrefl _ h1
      · rw [e1] at h2; exact lt_irrefl _ h2
      · exact ih bs t1 t2

theorem chLt_trichotomy : ∀ as bs : List Char,
    chLt as bs = true ∨ as = bs ∨ chLt bs as = true := by
  intro as
  induction as with
  | nil =>
    intro bs
    cases bs with
    | nil => exact Or.inr (Or.inl rfl)
    | cons b bs => exact Or.inl (by simp [chLt])
  | cons a as ih =>
    intro bs
    cases bs with
    | nil => exact Or.inr (Or.inr (by simp [chLt]))
    | cons b bs =>
      rcases lt_trichotomy a b with h | h | h
      · exact Or.inl (by simp [chLt, h])
      · subst h
        rcases ih bs with h2 | h2 | h2
        · exact Or.inl (by simp [chLt, h2])
        · exact Or.inr (Or.inl (by rw [h2]))
        · exact Or.inr (Or.inr (by simp [chLt, h2]))
      · exact Or.inr (Or.inr (by simp [chLt, h]))

theorem string_eq_of_data_eq {a b : String} (h : a.data = b.data) : a = b :=
  congrArg String.mk h

theorem strLtb_trans (a b c : String) :
    strLtb a b = true → strLtb b c = true → strLtb a c = true :=
  chLt_trans a.data b.data c.data

theorem strLtb_asymm (a b : String) :
    strLtb a b = true → strLtb b a = true → False :=
  chLt_asymm a.data b.data

theorem strLtb_trichotomy (a b : String) :
    strLtb a b = true ∨ a = b ∨ strLtb b a = true := by
  rcases chLt_trichotomy a.data b.data with h | h | h
  · exact Or.inl h
  · exact Or.inr (Or.inl (string_eq_of_data_eq h))
  · exact Or.inr (Or.inr h)

theorem strLeb_total (a b : String) : strLeb a b = true ∨ strLeb b a = true := by
  rcases strLtb_trichotomy a b with h | h | h
  · exact Or.inl (by simp [strLeb, h])
  · exact Or.inl (by simp [strLeb, h])
  · exact Or.inr (by simp [strLeb, h])

theorem strLeb_trans (a b c : String) :
    strLeb a b = true → strLeb b c = true → strLeb a c = true := by
  simp only [strLeb, Bool.or_eq_true, beq_iff_eq]
  rintro (h1 | rfl) (h2 | rfl)
  · exact Or.inl (strLtb_trans a b c h1 h2)
  · exact Or.inl h1
  · exact Or.inl h2
  · exact Or.inr rfl

theorem strLeb_antisymm (a b : String) :
    strLeb a b = true → strLeb b a = true → a = b := by
  simp only [strLeb, Bool.or_eq_true, beq_iff_eq]
  rintro (h1 | rfl) (h2 | h2)
  · exact absurd h2 (fun h => strLtb_asymm a b h1 h)
  · exact h2.symm
  · rfl
  · rfl

theorem lexCons_total [BEq α] [LawfulBEq α] (ltH : α → α → Bool)
    (leT : β → β → Bool)
    (htri : ∀ a b : α, ltH a b = true ∨ a = b ∨ ltH b a = true)
    (htot : ∀ u v : β, leT u v = true ∨ leT v u = true) :
    ∀ x y : α × β, lexCons ltH leT x y = true ∨ lexCons ltH leT y x = true := by
  intro x y
  rcases htri x.1 y.1 with h | h | h
  · exact Or.inl (by simp [lexCons, h])
  · rcases htot x.2 y.2 with h2 | h2
    · exact Or.inl (by simp [lexCons, h, h2])
    · exact Or.inr (by simp [lexCons, h.symm, h2])
  · exact Or.inr (by simp [lexCons, h])

theorem lexCons_trans [BEq α] [LawfulBEq α] (ltH : α → α → Bool)
    (leT : β → β → Bool)
    (hlt : ∀ a b c : α, ltH a b = true → ltH b c = true → ltH a c = true)
    (hT : ∀ u v w : β, leT u v = true → leT v w = true → leT u w = true) :
    ∀ x y z : α × β, lexCons ltH leT x y = true → lexCons ltH leT y z = true →
      lexCons ltH leT x z = true := by
  intro x y z hxy hyz
  simp only [lexCons, Bool.or_eq_true, Bool.and_eq_true, beq_iff_eq] at hxy hyz ⊢
  rcases hxy with h1 | ⟨e1, t1⟩ <;> rcases hyz with h2 | ⟨e2, t2⟩
  · exact Or.inl (hlt _ _ _ h1 h2)
  · exact Or.inl (by rw [← e2]; exact h1)
  · exact Or.inl (by rw [e1]; exact h2)
  · exact Or.inr ⟨e1.trans e2, hT _ _ _ t1 t2⟩

theorem lexCons_antisymm [BEq α] [LawfulBEq α] (ltH : α → α → Bool)
    (leT : β → β → Bool)
    (hasym : ∀ a b : α, ltH a b = true → ltH b a = true → False)
    (hT : ∀ u v : β, leT u v = true → leT v u = true → u = v) :
    ∀ x y : α × β, lexCons ltH leT x y = true → lexCons ltH leT y x = true →
      x = y := by
  intro x y hxy hyx
  simp only [lexCons, Bool.or_eq_true, Bool.and_eq_true, beq_iff_eq] at hxy hyx
  rcases hxy with h1 | ⟨e1, t1⟩ <;> rcases hyx with h2 | ⟨e2, t2⟩
  · exact absurd h2 (fun h => hasym _ _ h1 h)
  · rw [e2] at h1; exact absurd h1 (fun h => hasym _ _ h h)
  · rw [e1] at h2; exact absurd h2 (fun h => hasym _ _ h h)
  · exact Prod.ext e1 (hT _ _ t1 t2)

theorem lex4_le_total (x y : String × String × String × String) :
    lex4_le x y = true ∨ lex4_le y x = true :=
  lexCons_total _ _ strLtb_trichotomy
    (lexCons_total _ _ strLtb_trichotomy
      (lexCons_total _ _ strLtb_trichotomy strLeb_total)) x y

theorem lex4_le_trans (x y z : String × String × String × String) :
    lex4_le x y = true → lex4_le y z = true → lex4_le x z = true :=
  lexCons_trans _ _ strLtb_trans
    (lexCons_trans _ _ strLtb_trans
      (lexCons_trans _ _ strLtb_trans strLeb_trans)) x y z

theorem lex4_le_antisymm (x y : String × String × String × String) :
    lex4_le x y = true → lex4_le y x = true → x = y :=
  lexCons_antisymm _ _ strLtb_asymm
    (lexCons_antisymm _ _ strLtb_asymm
      (lexCons_antisymm _ _ strLtb_asymm strLeb_antisymm)) x y

theorem norm_entry_le_total (a b : NormEntry) :
    norm_entry_le a b = true ∨ norm_entry_le b a = true :=
  lex4_le_total _ _

theorem norm_entry_le_trans (a b c : NormEntry) :
    norm_entry_le a b = true → norm_entry_le b c = true →
      norm_entry_le a c = true :=
  lex4_le_trans _ _ _

theorem norm_entry_le_key_eq (a b : NormEntry) :
    norm_entry_le a b = true → norm_entry_le b a = true →
      evidence_sort_key a = evidence_sort_key b :=
  lex4_le_antisymm _ _

/-- On entries whose identifier fields are populated (`Option.some`), the
sort key is injective: key ties force entry equality. -/
theorem norm_entry_eq_of_key_eq (a b : NormEntry)
    (ha1 : a.1.isSome) (ha2 : a.2.1.isSome)
    (hb1 : b.1.isSome) (hb2 : b.2.1.isSome)
    (h : evidence_sort_key a = evidence_sort_key b) : a = b := by
  rcases a with ⟨a1, a2, a3, a4⟩
  rcases b with ⟨b1, b2, b3, b4⟩
  cases a1 with
  | none => simp at ha1
  | some x1 =>
    cases a2 with
    | none => simp at ha2
    | some x2 =>
      cases b1 with
      | none => simp at hb1
      | some y1 =>
        cases b2 with
        | none => simp at hb2
        | some y2 =>
          simp only [evidence_sort_key, Option.getD_some, Prod.mk.injEq] at h
          simp [h.1, h.2.1, h.2.2.1, h.2.2.2]

/-! ### Sorted-list equality is multiset equality -/

theorem eq_of_perm_of_pairwise (le : α → α → Bool)
    (htot : ∀ x y, le x y = true ∨ le y x = true) :
    ∀ (A B : List α), List.Perm A B →
      A.Pairwise (fun x y => le x y = true) →
      B.Pairwise (fun x y => le x y = true) →
      (∀ a ∈ A, ∀ b ∈ B, le a b = true → le b a = true → a = b) →
      A = B := by
  intro A
  induction A with
  | nil =>
    intro B hp _ _ _
    exact (List.Perm.eq_nil hp.symm).symm
  | cons a A ih =>
    intro B hp hA hB hanti
    cases B with
    | nil =>
      have := hp.length_eq
      simp at this
    | cons b B' =>
      have hbmem : b ∈ a :: A := hp.mem_iff.2 (by simp)
      have hamem : a ∈ b :: B' := hp.mem_iff.1 (by simp)
      have hab : le a b = true := by
        rcases List.mem_cons.1 hbmem with heq | hb'
        · rw [heq]
          rcases htot a a with h | h <;> exact h
        · exact (List.pairwise_cons.1 hA).1 b hb'
      have hba : le b a = true := by
        rcases List.mem_cons.1 hamem with heq | ha'
        · rw [heq]
          rcases htot b b with h | h <;> exact h
        · exact (List.pairwise_cons.1 hB).1 a ha'
      have heq : a = b := hanti a (by simp) b (by simp) hab hba
      subst heq
      have hp' : List.Perm A B' := hp.cons_inv
      have htail := ih B' hp' hA.of_cons hB.of_cons
        (fun x hx y hy h1 h2 => hanti x (by simp [hx]) y (by simp [hy]) h1 h2)
      rw [htail]

theorem pySorted_eq_iff_perm (le : α → α → Bool)
    (htot : ∀ x y, le x y = true ∨ le y x = true)
    (htrans : ∀ x y z, le x y = true → le y z = true → le x z = true)
    (A B : List α)
    (hanti : ∀ a ∈ A, ∀ b ∈ B, le a b = true → le b a = true → a = b) :
    pySorted le A = pySorted le B ↔ List.Perm A B := by
  constructor
  · intro h
    have h1 := pySorted_perm le A
    have h2 := pySorted_perm le B
    rw [← h] at h2
    exact h1.symm.trans h2
  · intro hp
    apply eq_of_perm_of_pairwise le htot
    · exact (pySorted_perm le A).trans (hp.trans (pySorted_perm le B).symm)
    · exact pairwise_pySorted le htot htrans A
    · exact pairwise_pySorted le htot htrans B
    · intro a ha b hb
      exact hanti a ((pySorted_perm le A).mem_iff.1 ha)
        b ((pySorted_perm le B).mem_iff.1 hb)

/-! ### C6 machinery: normalization characterizations -/

/-- The entries contributed by one LLM evidence string (empty on a
normalization error; used only where success is separately known). -/
def g_entries (s : String) : List NormEntry :=
  match _normalize_and_split_llm_evidence s with
  | Except.ok es => es
  | Except.error _ => []

theorem isEmpty_false_of_ne {A : List α} (h : A ≠ []) : A.isEmpty = false := by
  cases A with
  | nil => exact absurd rfl h
  | cons a l => rfl

theorem mapM_norm_ok (l : List String)
    (h : ∀ s ∈ l, ∃ es, _normalize_and_split_llm_evidence s = Except.ok es) :
    l.mapM _normalize_and_split_llm_evidence = Except.ok (l.map g_entries) := by
  induction l with
  | nil => rfl
  | cons s rest ih =>
    obtain ⟨es, hes⟩ := h s (by simp)
    rw [List.mapM_cons, hes, ih (fun t ht => h t (by simp [ht]))]
    simp only [g_entries, hes, List.map_cons]
    rfl

theorem mapM_norm_ok_inv (l : List String) :
    ∀ L : List (List NormEntry),
      l.mapM _normalize_and_split_llm_evidence = Except.ok L →
      (∀ s ∈ l, ∃ es, _normalize_and_split_llm_evidence s = Except.ok es) ∧
        L = l.map g_entries := by
  induction l with
  | nil =>
    intro L h
    refine ⟨by simp, ?_⟩
    have : (Except.ok [] : Except PyError (List (List NormEntry))) = Except.ok L := h
    simpa using this.symm
  | cons s rest ih =>
    intro L h
    rw [List.mapM_cons] at h
    cases hs : _normalize_and_split_llm_evidence s with
    | error e =>
      rw [hs] at h
      simp [Bind.bind, Except.bind] at h
    | ok es =>
      rw [hs] at h
      cases hr : rest.mapM _normalize_and_split_llm_evidence with
      | error e =>
        rw [hr] at h
        simp [Bind.bind, Except.bind] at h
      | ok L0 =>
        rw [hr] at h
        simp only [Bind.bind, Except.bind, pure, Except.pure, Except.ok.injEq] at h
        obtain ⟨hall, hmap⟩ := ih L0 hr
        refine ⟨?_, ?_⟩
        · intro t ht
          rcases List.mem_cons.1 ht with rfl | ht
          · exact ⟨es, hs⟩
          · exact hall t ht
        · rw [← h, hmap]
          simp [g_entries, hs]

theorem llm_normalized_eq (l : List String)
    (h : ∀ s ∈ l, ∃ es, _normalize_and_split_llm_evidence s = Except.ok es) :
    llm_normalized l = Except.ok ((l.map g_entries).flatten) := by
  unfold llm_normalized
  rw [mapM_norm_ok l h]
  rfl

theorem llm_normalized_inv (l : List String) (A : List NormEntry)
    (h : llm_normalized l = Except.ok A) :
    (∀ s ∈ l, ∃ es, _normalize_and_split_llm_evidence s = Except.ok es) ∧
      A = (l.map g_entries).flatten := by
  unfold llm_normalized at h
  cases hm : l.mapM _normalize_and_split_llm_evidence with
  | error e =>
    rw [hm] at h
    simp [Except.map] at h
  | ok L =>
    rw [hm] at h
    simp only [Except.map, Except.ok.injEq] at h
    obtain ⟨hall, hmap⟩ := mapM_norm_ok_inv l L hm
    exact ⟨hall, by rw [← h, hmap]⟩

theorem sql_row_entries_isSome (k : String) (row : List (String × PyVal)) :
    ∀ e ∈ sql_row_entries k row, e.1.isSome ∧ e.2.1.isSome := by
  intro e he
  simp only [sql_row_entries] at he
  split at he
  · simp at he
  · rcases List.mem_filterMap.1 he with ⟨kv, _, hf⟩
    split at hf
    · simp at hf
    · split at hf
      · simp only [Option.some.injEq] at hf
        subst hf
        exact ⟨rfl, rfl⟩
      · split at hf
        · simp at hf
        · simp only [Option.some.injEq] at hf
          subst hf
          exact ⟨rfl, rfl⟩

theorem sql_normalized_isSome (k : String)
    (sql : List (List (String × PyVal))) :
    ∀ e ∈ sql_normalized k sql, e.1.isSome ∧ e.2.1.isSome := by
  intro e he
  unfold sql_normalized at he
  rcases List.mem_flatten.1 he with ⟨blk, hblk, hemem⟩
  rcases List.mem_map.1 hblk with ⟨row, _, rfl⟩
  exact sql_row_entries_isSome k row e hemem

/-- Key-tie injectivity holds between any two entry lists whose identifier
fields are populated. -/
theorem anti_of_some (A B : List NormEntry)
    (hA : ∀ e ∈ A, e.1.isSome ∧ e.2.1.isSome)
    (hB : ∀ e ∈ B, e.1.isSome ∧ e.2.1.isSome) :
    ∀ a ∈ A, ∀ b ∈ B, norm_entry_le a b = true → norm_entry_le b a = true →
      a = b := by
  intro a ha b hb h1 h2
  exact norm_entry_eq_of_key_eq a b (hA a ha).1 (hA a ha).2 (hB b hb).1
    (hB b hb).2 (norm_entry_le_key_eq a b h1 h2)

theorem llm_primary_of_all (A : List NormEntry) (k : String) (hne : A ≠ [])
    (hall : ∀ e ∈ A, e.1 = Option.some k)
    (hk : k = "股票简称" ∨ k = "股票代码") : llm_primary A = k := by
  cases A with
  | nil => exact absurd rfl hne
  | cons e rest =>
    have he := hall e (by simp)
    simp only [llm_primary, he]
    rcases hk with rfl | rfl <;> simp

theorem compare_evidence_char_empty (llm : List String)
    (sql : List (List (String × PyVal)))
    (hA : llm_normalized llm = Except.ok []) :
    compare_evidence llm sql = Except.ok sql.isEmpty := by
  unfold compare_evidence
  rw [hA]
  rfl

theorem compare_evidence_char_ne (llm : List String)
    (sql : List (List (String × PyVal))) (A : List NormEntry)
    (hA : llm_normalized llm = Except.ok A) (hne : A ≠ []) :
    compare_evidence llm sql =
      Except.ok (decide (pySorted norm_entry_le A =
        pySorted norm_entry_le (sql_normalized (llm_primary A) sql))) := by
  unfold compare_evidence
  rw [hA]
  simp [isEmpty_false_of_ne hne]

/-- C6: `compare_evidence` has multiset semantics over normalized entries.
Part 1: an integer-valued numeric field and its float form normalize to the
same standardized value (`279000000` vs `279000000.0`).  Part 2: for any LLM
evidence whose entries carry a consistent recognized identifier, (i) the
comparison succeeds exactly when the normalized LLM entries and the
normalized SQL entries are equal as multisets (permutations); (ii) the
result is invariant under reordering either list; (iii)/(iv) removing one
contributing element from either side of a matching pair makes the
comparison false; (v)/(vi) duplicating one contributing element on only one
side makes the comparison false. -/
theorem compare_evidence_multiset_semantics :
    (∀ (n : Int) (c : String),
      _standardize_value (PyVal.int n) c =
        _standardize_value (PyVal.float (n : Rat)) c) ∧
    (∀ (llm llm2 : List String) (sql sql2 : List (List (String × PyVal)))
        (A : List NormEntry) (k : String),
      llm_normalized llm = Except.ok A →
      A ≠ [] →
      (∀ e ∈ A, e.1 = Option.some k ∧ e.2.1.isSome) →
      (k = "股票简称" ∨ k = "股票代码") →
      ((compare_evidence llm sql = Except.ok true ↔
          List.Perm A (sql_normalized k sql)) ∧
        (List.Perm llm2 llm → List.Perm sql2 sql →
          compare_evidence llm2 sql2 = compare_evidence llm sql) ∧
        (∀ l1 s l2, llm = l1 ++ s :: l2 → g_entries s ≠ [] →
          compare_evidence llm sql = Except.ok true →
          compare_evidence (l1 ++ l2) sql = Except.ok false) ∧
        (∀ r1 r r2, sql = r1 ++ r :: r2 → sql_row_entries k r ≠ [] →
          compare_evidence llm sql = Except.ok true →
          compare_evidence llm (r1 ++ r2) = Except.ok false) ∧
        (∀ s ∈ llm, g_entries s ≠ [] →
          compare_evidence llm sql = Except.ok true →
          compare_evidence (llm ++ [s]) sql = Except.ok false) ∧
        (∀ r ∈ sql, sql_row_entries k r ≠ [] →
          compare_evidence llm sql = Except.ok true →
          compare_evidence llm (sql ++ [r]) = Except.ok false))) := by
  constructor
  · intro n c
    rfl
  · intro llm llm2 sql sql2 A k hA hne hall hk
    obtain ⟨hok, hAeq⟩ := llm_normalized_inv llm A hA
    have hprim : llm_primary A = k :=
      llm_primary_of_all A k hne (fun e he => (hall e he).1) hk
    have hAsome : ∀ e ∈ A, e.1.isSome ∧ e.2.1.isSome := fun e he =>
      ⟨by rw [(hall e he).1]; rfl, (hall e he).2⟩
    have hBsome := sql_normalized_isSome k sql
    have hchar := compare_evidence_char_ne llm sql A hA hne
    rw [hprim] at hchar
    have hiff : compare_evidence llm sql = Except.ok true ↔
        List.Perm A (sql_normalized k sql) := by
      rw [hchar]
      constructor
      · intro h
        injection h with hd
        exact (pySorted_eq_iff_perm norm_entry_le norm_entry_le_total
          norm_entry_le_trans A _ (anti_of_some A _ hAsome hBsome)).1
          (of_decide_eq_true hd)
      · intro hp
        have hs := (pySorted_eq_iff_perm norm_entry_le norm_entry_le_total
          norm_entry_le_trans A _ (anti_of_some A _ hAsome hBsome)).2 hp
        rw [hs]
        simp
    refine ⟨hiff, ?_, ?_, ?_, ?_, ?_⟩
    · -- (ii) order-insensitivity
      intro hpl hps
      have hok2 : ∀ s ∈ llm2, ∃ es,
          _normalize_and_split_llm_evidence s = Except.ok es :=
        fun s hs => hok s (hpl.mem_iff.1 hs)
      have hA2 := llm_normalized_eq llm2 hok2
      have hA2perm : List.Perm ((llm2.map g_entries).flatten) A := by
        rw [hAeq]
        exact List.Perm.flatten (hpl.map g_entries)
      have hA2ne : ((llm2.map g_entries).flatten) ≠ [] := by
        intro h0
        have hl := hA2perm.length_eq
        rw [h0] at hl
        exact hne (List.length_eq_zero.1 hl.symm)
      have hall2 : ∀ e ∈ ((llm2.map g_entries).flatten),
          e.1 = Option.some k ∧ e.2.1.isSome :=
        fun e he => hall e (hA2perm.mem_iff.1 he)
      have hA2some : ∀ e ∈ ((llm2.map g_entries).flatten),
          e.1.isSome ∧ e.2.1.isSome := fun e he =>
        ⟨by rw [(hall2 e he).1]; rfl, (hall2 e he).2⟩
      have hprim2 : llm_primary ((llm2.map g_entries).flatten) = k :=
        llm_primary_of_all _ k hA2ne (fun e he => (hall2 e he).1) hk
      have hchar2 := compare_evidence_char_ne llm2 sql2 _ hA2 hA2ne
      rw [hprim2] at hchar2
      have hB2perm : List.Perm (sql_normalized k sql2) (sql_normalized k sql) :=
        List.Perm.flatten (hps.map (sql_row_entries k))
      have hsortA : pySorted norm_entry_le ((llm2.map g_entries).flatten) =
          pySorted norm_entry_le A :=
        (pySorted_eq_iff_perm norm_entry_le norm_entry_le_total
          norm_entry_le_trans _ _ (anti_of_some _ _ hA2some hAsome)).2 hA2perm
      have hsortB : pySorted norm_entry_le (sql_normalized k sql2) =
          pySorted norm_entry_le (sql_normalized k sql) :=
        (pySorted_eq_iff_perm norm_entry_le norm_entry_le_total
          norm_entry_le_trans _ _
          (anti_of_some _ _ (sql_normalized_isSome k sql2) hBsome)).2 hB2perm
      rw [hchar2, hchar, hsortA, hsortB]
    · -- (iii) removing one contributing LLM string
      intro l1 s l2 hsplit hgs htrue
      have hperm := hiff.1 htrue
      have hok' : ∀ t ∈ l1 ++ l2, ∃ es,
          _normalize_and_split_llm_evidence t = Except.ok es := by
        intro t ht
        apply hok
        rw [hsplit]
        rcases List.mem_append.1 ht with h | h
        · exact List.mem_append.2 (Or.inl h)
        · exact List.mem_append.2 (Or.inr (List.mem_cons.2 (Or.inr h)))
      have hA' := llm_normalized_eq (l1 ++ l2) hok'
      have hAsplit : A = (l1.map g_entries).flatten ++
          (g_entries s ++ (l2.map g_entries).flatten) := by
        rw [hAeq, hsplit, List.map_append, List.map_cons, List.flatten_append,
          List.flatten_cons]
      have hA'eq : ((l1 ++ l2).map g_entries).flatten =
          (l1.map g_entries).flatten ++ (l2.map g_entries).flatten := by
        rw [List.map_append, List.flatten_append]
      have hgl : 0 < (g_entries s).length := List.length_pos.2 hgs
      have hBlen := hperm.length_eq
      by_cases hA'nil : ((l1 ++ l2).map g_entries).flatten = []
      · rw [hA'nil] at hA'
        rw [compare_evidence_char_empty (l1 ++ l2) sql hA']
        have hsql : sql ≠ [] := by
          intro h0
          rw [h0] at hperm
          have hl := hperm.length_eq
          simp [sql_normalized] at hl
          exact hne hl
        rw [isEmpty_false_of_ne hsql]
      · have hsub : ∀ e ∈ ((l1 ++ l2).map g_entries).flatten, e ∈ A := by
          intro e he
          rw [hA'eq] at he
          rw [hAsplit]
          rcases List.mem_append.1 he with h | h
          · exact List.mem_append.2 (Or.inl h)
          · exact List.mem_append.2 (Or.inr (List.mem_append.2 (Or.inr h)))
        have hall' : ∀ e ∈ ((l1 ++ l2).map g_entries).flatten,
            e.1 = Option.some k ∧ e.2.1.isSome :=
          fun e he => hall e (hsub e he)
        have hsome' : ∀ e ∈ ((l1 ++ l2).map g_entries).flatten,
            e.1.isSome ∧ e.2.1.isSome := fun e he =>
          ⟨by rw [(hall' e he).1]; rfl, (hall' e he).2⟩
        have hprim' := llm_primary_of_all _ k hA'nil
          (fun e he => (hall' e he).1) hk
        have hchar' := compare_evidence_char_ne (l1 ++ l2) sql _ hA' hA'nil
        rw [hprim'] at hchar'
        have hdec : decide (pySorted norm_entry_le
            (((l1 ++ l2).map g_entries).flatten) =
            pySorted norm_entry_le (sql_normalized k sql)) = false := by
          apply decide_eq_false
          intro heq
          have hp' := (pySorted_eq_iff_perm norm_entry_le norm_entry_le_total
            norm_entry_le_trans _ _ (anti_of_some _ _ hsome' hBsome)).1 heq
          have h1 := hp'.length_eq
          have h2 : A.length = ((l1 ++ l2).map g_entries).flatten.length +
              (g_entries s).length := by
            rw [hAsplit, hA'eq]
            simp only [List.length_append]
            omega
          omega
        rw [hchar', hdec]
    · -- (iv) removing one contributing SQL row
      intro r1 r r2 hsplit hre htrue
      have hperm := hiff.1 htrue
      have hBsplit : sql_normalized k sql =
          (r1.map (sql_row_entries k)).flatten ++
            (sql_row_entries k r ++ (r2.map (sql_row_entries k)).flatten) := by
        rw [hsplit]
        simp only [sql_normalized, List.map_append, List.map_cons,
          List.flatten_append, List.flatten_cons]
      have hB'eq : sql_normalized k (r1 ++ r2) =
          (r1.map (sql_row_entries k)).flatten ++
            (r2.map (sql_row_entries k)).flatten := by
        simp only [sql_normalized, List.map_append, List.flatten_append]
      have hchar' := compare_evidence_char_ne llm (r1 ++ r2) A hA hne
      rw [hprim] at hchar'
      have hdec : decide (pySorted norm_entry_le A =
          pySorted norm_entry_le (sql_normalized k (r1 ++ r2))) = false := by
        apply decide_eq_false
        intro heq
        have hp' := (pySorted_eq_iff_perm norm_entry_le norm_entry_le_total
          norm_entry_le_trans A _
          (anti_of_some _ _ hAsome (sql_normalized_isSome k (r1 ++ r2)))).1 heq
        have h1 := hperm.length_eq
        have h2 := hp'.length_eq
        have hgl : 0 < (sql_row_entries k r).length := List.length_pos.2 hre
        rw [hBsplit] at h1
        rw [hB'eq] at h2
        simp only [List.length_append] at h1 h2
        omega
      rw [hchar', hdec]
    · -- (v) duplicating an LLM string
      intro s hs hgs htrue
      have hperm := hiff.1 htrue
      have hok'' : ∀ t ∈ llm ++ [s], ∃ es,
          _normalize_and_split_llm_evidence t = Except.ok es := by
        intro t ht
        rcases List.mem_append.1 ht with h | h
        · exact hok t h
        · rw [List.mem_singleton] at h
          subst h
          exact hok t hs
      have hA'' := llm_normalized_eq (llm ++ [s]) hok''
      have hA''eq : ((llm ++ [s]).map g_entries).flatten = A ++ g_entries s := by
        rw [hAeq, List.map_append, List.flatten_append]
        simp
      have hA''ok : llm_normalized (llm ++ [s]) =
          Except.ok (A ++ g_entries s) := by
        rw [hA'']
        exact congrArg Except.ok hA''eq
      have hgsub : ∀ e ∈ g_entries s, e ∈ A := by
        intro e he
        rw [hAeq]
        exact List.mem_flatten.2 ⟨g_entries s, List.mem_map_of_mem _ hs, he⟩
      have hall'' : ∀ e ∈ A ++ g_entries s,
          e.1 = Option.some k ∧ e.2.1.isSome := by
        intro e he
        rcases List.mem_append.1 he with h | h
        · exact hall e h
        · exact hall e (hgsub e h)
      have hsome'' : ∀ e ∈ A ++ g_entries s, e.1.isSome ∧ e.2.1.isSome :=
        fun e he => ⟨by rw [(hall'' e he).1]; rfl, (hall'' e he).2⟩
      have hA''ne : A ++ g_entries s ≠ [] := by
        intro h0
        exact hne (List.append_eq_nil.1 h0).1
      have hprim'' := llm_primary_of_all _ k hA''ne
        (fun e he => (hall'' e he).1) hk
      have hchar'' := compare_evidence_char_ne (llm ++ [s]) sql _ hA''ok hA''ne
      rw [hprim''] at hchar''
      have hdec : decide (pySorted norm_entry_le (A ++ g_entries s) =
          pySorted norm_entry_le (sql_normalized k sql)) = false := by
        apply decide_eq_false
        intro heq
        have hp' := (pySorted_eq_iff_perm norm_entry_le norm_entry_le_total
          norm_entry_le_trans _ _ (anti_of_some _ _ hsome'' hBsome)).1 heq
        have h1 := hp'.length_eq
        have h2 := hperm.length_eq
        have hgl : 0 < (g_entries s).length := List.length_pos.2 hgs
        simp only [List.length_append] at h1
        omega
      rw [hchar'', hdec]
    · -- (vi) duplicating a SQL row
      intro r hr hre htrue
      have hperm := hiff.1 htrue
      have hB''eq : sql_normalized k (sql ++ [r]) =
          sql_normalized k sql ++ sql_row_entries k r := by
        simp only [sql_normalized, List.map_append, List.flatten_append]
        simp
      have hchar'' := compare_evidence_char_ne llm (sql ++ [r]) A hA hne
      rw [hprim] at hchar''
      have hdec : decide (pySorted norm_entry_le A =
          pySorted norm_entry_le (sql_normalized k (sql ++ [r]))) = false := by
        apply decide_eq_false
        intro heq
        have hp' := (pySorted_eq_iff_perm norm_entry_le norm_entry_le_total
          norm_entry_le_trans A _
          (anti_of_some _ _ hAsome (sql_normalized_isSome k (sql ++ [r])))).1 heq
        have h1 := hp'.length_eq
        have h2 := hperm.length_eq
        have hgl : 0 < (sql_row_entries k r).length := List.length_pos.2 hre
        rw [hB''eq] at h1
        simp only [List.length_append] at h1
        omega
      rw [hchar'', hdec]

/-- Concrete inputs for the C6 witness. -/
def c6_llm : List String := ["股票简称: A; x: 279000000"]

/-- One SQL row matching `c6_llm`, with the numeric field as a Python int. -/
def c6_sql : List (List (String × PyVal)) :=
  [[("股票简称", PyVal.str "A"), ("x", PyVal.int 279000000)]]

/-- The normalized entries of `c6_llm`. -/
def c6_entries : List NormEntry :=
  [(Option.some "股票简称", Option.some "A", "x", "279000000.0")]

theorem compare_evidence_multiset_semantics_witness :
    compare_evidence c6_llm c6_sql = Except.ok true ∧
    _standardize_value (PyVal.int 279000000) "x" =
      _standardize_value (PyVal.float 279000000) "x" := by
  constructor
  · exact ((compare_evidence_multiset_semantics.2 c6_llm c6_llm c6_sql c6_sql
      c6_entries "股票简称" (by decide) (by decide) (by decide)
      (by decide)).1).mpr (by decide)
  · exact compare_evidence_multiset_semantics.1 279000000 "x"

/-! ### C7: answer comparison tolerance -/

/-- C7: `compare_answers` returns true exactly when both arguments convert
to floats whose difference is within relative tolerance 1e-9 (so
`compare_answers(5.000000001, 5.0)` is true and `compare_answers(5.1, 5.0)`
is false), and falls back to equality of the trimmed string forms when
either argument is non-numeric (so `compare_answers("foo", "foo ")` is
true). -/
theorem compare_answers_tolerance :
    (∀ (a1 a2 : PyVal) (n1 n2 : Rat),
      pyFloatOf a1 = Except.ok n1 → pyFloatOf a2 = Except.ok n2 →
      (compare_answers a1 a2 = true ↔
        |n1 - n2| ≤ (1 : Rat) / 10 ^ 9 * max |n1| |n2|)) ∧
    (∀ a1 a2 : PyVal,
      ((∀ n, pyFloatOf a1 ≠ Except.ok n) ∨ (∀ n, pyFloatOf a2 ≠ Except.ok n)) →
      (compare_answers a1 a2 = true ↔ pyStrip (pyStr a1) = pyStrip (pyStr a2))) ∧
    compare_answers (PyVal.float (5 + 1 / 10 ^ 9)) (PyVal.float 5) = true ∧
    compare_answers (PyVal.str "foo") (PyVal.str "foo ") = true ∧
    compare_answers (PyVal.float (51 / 10)) (PyVal.float 5) = false := by
  refine ⟨?_, ?_, by decide, by decide, by decide⟩
  · intro a1 a2 n1 n2 h1 h2
    simp only [compare_answers, h1, h2, isclose, decide_eq_true_eq]
    rw [max_eq_left (by positivity)]
  · intro a1 a2 h
    rcases h with h | h
    · cases hv : pyFloatOf a1 with
      | ok n => exact absurd hv (h n)
      | error e =>
        cases hv2 : pyFloatOf a2 <;>
          simp [compare_answers, hv, hv2, beq_iff_eq]
    · cases hv : pyFloatOf a2 with
      | ok n => exact absurd hv (h n)
      | error e =>
        cases hv2 : pyFloatOf a1 <;>
          simp [compare_answers, hv, hv2, beq_iff_eq]

theorem compare_answers_tolerance_witness :
    compare_answers (PyVal.float 5) (PyVal.float 5) = true ∧
    compare_answers (PyVal.str "foo") (PyVal.str "bar") = false := by
  constructor
  · exact (compare_answers_tolerance.1 (PyVal.float 5) (PyVal.float 5) 5 5 rfl
      rfl).mpr (by norm_num)
  · have h := compare_answers_tolerance.2.1 (PyVal.str "foo") (PyVal.str "bar")
      (Or.inl (by
        intro n h
        have he : pyFloatOf (PyVal.str "foo") =
            Except.error (PyError.valueError "could not convert string to float") := by
          decide
        rw [he] at h
        exact Except.noConfusion h))
    cases hb : compare_answers (PyVal.str "foo") (PyVal.str "bar") with
    | false => rfl
    | true => exact absurd (h.1 hb) (by decide)

/-! ### Session data model.  `utils/data_struct.py` is not part of the
sources here; these passive containers are modelled from the spec's data
model (§3), carrying the fields the embedded code reads. -/

/-- Modelled from the spec: a normalized relation (`Table`) with headers and
rows; only carried through, never inspected by the claims below. -/
structure Table where
  headers : List String
  rows : List (List (String × PyVal))

/-- Modelled from the spec: a `Session` with its identifier and tables (the
fields read by sampling and validation). -/
structure Session where
  id : String
  tables : List Table := []

/-- Modelled from the spec: a `Conversation` owning its sessions. -/
structure Conversation where
  id : String
  sessions : List Session

/-- Modelled from the spec: the root `Dataset`. -/
structure Dataset where
  conversations : List Conversation

/-! ### Context sampling (QuestionGenerator._generate_single_qa, lines 85-90) -/

/-- `random.randint(a, b)`: raises `ValueError` when the range is empty;
otherwise the draw is `a + r % (b - a + 1)`, which is uniform on `[a, b]`
when the oracle `r` is uniform. -/
def pyRandint (a b : Nat) (r : Nat) : Except PyError Nat :=
  if b < a then Except.error (PyError.valueError "empty range for randrange")
  else Except.ok (a + r % (b - a + 1))

/-- The selection core of `random.sample`: draw `k` elements without
replacement, each draw removing the chosen element; the oracle list `rs`
supplies the draws (an exhausted oracle picks index 0). -/
def sampleGo : Nat → List Nat → List α → List α
  | 0, _, _ => []
  | k + 1, rs0, l =>
    match l with
    | [] => []
    | a :: l' =>
      let i := rs0.headD 0 % (a :: l').length
      (a :: l').getD i a :: sampleGo k rs0.tail ((a :: l').eraseIdx i)

/-- `random.sample(population, k)`: raises `ValueError` when
`k > len(population)`. -/
def pySample (l : List α) (k : Nat) (rs : List Nat) : Except PyError (List α) :=
  if l.length < k then
    Except.error (PyError.valueError "Sample larger than population or is negative")
  else Except.ok (sampleGo k rs l)

/-- Session comparison used by `selected_sessions.sort(key=lambda s: s.id)`. -/
def session_id_le (a b : Session) : Bool := strLeb a.id b.id

/-- Lines 85-90 of `QuestionGenerator._generate_single_qa`:
`session_count = random.randint(min_sessions, min(max_sessions, len(conversation.sessions)))`,
`selected_sessions = random.sample(conversation.sessions, session_count)`,
`selected_sessions.sort(key=lambda s: s.id)`.  Exceptions propagate: nothing
in `_generate_single_qa` or `batch_generate` catches them. -/
def select_sessions (sessions : List Session) (min_sessions max_sessions : Nat)
    (r : Nat) (rs : List Nat) : Except PyError (List Session) :=
  match pyRandint min_sessions (min max_sessions sessions.length) r with
  | Except.error e => Except.error e
  | Except.ok session_count =>
    match pySample sessions session_count rs with
    | Except.error e => Except.error e
    | Except.ok selected => Except.ok (pySorted session_id_le selected)

/-! ### BatchValidator.validate_qas, per-item step (lines 358-406) -/

/-- The keyword parameters `QACacheManager.add_qa` accepts besides
`qa_pair`.  The skip branches of `validate_qas` call
`add_qa(qa_item, status=..., sql_status=...)`; Python raises `TypeError`
for a keyword argument that is not a parameter of the callee. -/
def add_qa_kw_params : List String := ["status", "sql_info"]

/-- Re-package a stored cache item as the `qa_pair` argument of `add_qa`
(the validator passes the item dict straight back in). -/
def toQAInput (q : QAItem) : QAInput :=
  { qa_id := Option.some q.qa_id
    question_text := q.question_text
    answer_text := q.answer_text
    evidence := q.evidence
    conversation_id := q.conversation_id
    session_ids := q.session_ids
    timestamp := Option.some q.timestamp
    difficulty := q.difficulty }

/-- One iteration of the `validate_qas` loop over a cache item.  `vac`
abstracts `validate_and_correct` (it invokes the external model); the two
lookup-failure branches attempt the `sql_status` keyword call and therefore
raise `TypeError` instead of recording a skip. -/
def validate_qas_item
    (vac : String → PyVal → List (List PyVal) → List Session → SqlInfo)
    (md5 : String → String) (now : String)
    (dataset : Dataset) (cache : List QAItem) (qa_item : QAItem) :
    Except PyError (List QAItem) :=
  let question := qa_item.question_text
  let answer_llm := qa_item.answer_text
  let evidence_llm : List (List PyVal) :=
    match qa_item.evidence with
    | Option.some (e :: rest) => e :: rest
    | _ => []
  if question.getD "" = "" ∨ pyTruthy answer_llm = false ∨
      evidence_llm.isEmpty ∨ qa_item.conversation_id.getD "" = "" ∨
      (qa_item.session_ids.getD []).isEmpty then
    Except.ok cache
  else
    match dataset.conversations.find?
        (fun conv => conv.id == qa_item.conversation_id.getD "") with
    | Option.none =>
      if "sql_status" ∈ add_qa_kw_params then Except.ok cache
      else
        Except.error (PyError.typeError
          "add_qa() got an unexpected keyword argument sql_status")
    | Option.some conv =>
      let selected_sessions :=
        conv.sessions.filter (fun s => (qa_item.session_ids.getD []).contains s.id)
      if selected_sessions.isEmpty then
        if "sql_status" ∈ add_qa_kw_params then Except.ok cache
        else
          Except.error (PyError.typeError
            "add_qa() got an unexpected keyword argument sql_status")
      else
        let sql_info := vac (question.getD "") answer_llm evidence_llm
          selected_sessions
        Except.ok (add_qa md5 now cache (toQAInput qa_item) qa_item.status
          sql_info).1

/-! ### QuestionGenerator._parse_llm_response -/

/-- A coerced evidence 5-tuple
`(str(code), str(sname), str(tdate), float(val), str(flow_col))`. -/
abbrev PyEvidence := String × String × String × Rat × String

/-- The structured parse result. -/
structure ParsedQA where
  question_text : Option PyVal
  answer_text : Rat
  evidence : List PyEvidence

/-- `for item in raw_evi`: Python iteration (lists yield elements, strings
yield characters, dicts yield keys; other values raise `TypeError`). -/
def iteratePy (v : PyVal) : Except PyError (List PyVal) :=
  match v with
  | PyVal.list xs => Except.ok xs
  | PyVal.str s => Except.ok (s.data.map (fun c => PyVal.str (String.singleton c)))
  | PyVal.dict kvs => Except.ok (kvs.map (fun kv => PyVal.str kv.1))
  | _ => Except.error (PyError.typeError "object is not iterable")

/-- Answer normalization of `_parse_llm_response`: a textual answer yields
the first signed decimal number (0.0 if none); `int`/`float` (and `bool`, an
`int` subclass) coerce to float; anything else becomes 0.0. -/
def parse_answer (answer : Option PyVal) : Rat :=
  match answer with
  | Option.some (PyVal.str s) =>
    match searchNumR1 s.data with
    | Option.some q => q
    | Option.none => 0
  | Option.some (PyVal.bool b) => if b then 1 else 0
  | Option.some (PyVal.int n) => (n : Rat)
  | Option.some (PyVal.float q) => q
  | _ => 0

/-- Coercion of a 5-element array into an evidence tuple; `float(val)` can
raise. -/
def coerce5 (l : List PyVal) : Except PyError PyEvidence :=
  match l with
  | [c, s, t, v, f] =>
    match pyFloatOf v with
    | Except.ok q => Except.ok (pyStr c, pyStr s, pyStr t, q, pyStr f)
    | Except.error e => Except.error e
  | _ => Except.error (PyError.typeError "unexpected arity")

/-- The evidence loop of `_parse_llm_response`: direct 5-element arrays are
coerced (a coercion failure escapes to the outer handler); string entries
are `json.loads`-ed inside an inner try whose failures are skipped; every
other shape falls through with no `else` branch and is silently dropped. -/
def parse_evidence (loads : String → Except Unit PyVal) :
    List PyVal → Except PyError (List PyEvidence)
  | [] => Except.ok []
  | item :: rest =>
    match item with
    | PyVal.list l =>
      if l.length = 5 then
        match coerce5 l with
        | Except.ok e => (parse_evidence loads rest).map (e :: ·)
        | Except.error err => Except.error err
      else parse_evidence loads rest
    | PyVal.str s =>
      match loads s with
      | Except.ok (PyVal.list l) =>
        if l.length = 5 then
          match coerce5 l with
          | Except.ok e => (parse_evidence loads rest).map (e :: ·)
          | Except.error _ => parse_evidence loads rest
        else parse_evidence loads rest
      | _ => parse_evidence loads rest
    | _ => parse_evidence loads rest

/-- `QuestionGenerator._parse_llm_response`.  `loads` abstracts
`json.loads`; any exception in the body returns `None`. -/
def _parse_llm_response (loads : String → Except Unit PyVal)
    (response : String) : Option ParsedQA :=
  match loads (pyStrip response) with
  | Except.error _ => Option.none
  | Except.ok (PyVal.dict kvs) =>
    let question_text := dictGet kvs "question"
    let answer_text := parse_answer (dictGet kvs "answer")
    let raw_evi := (dictGet kvs "evidence").getD (PyVal.list [])
    match iteratePy raw_evi with
    | Except.error _ => Option.none
    | Except.ok items =>
      match parse_evidence loads items with
      | Except.error _ => Option.none
      | Except.ok evidence =>
        Option.some
          { question_text := question_text
            answer_text := answer_text
            evidence := evidence }
  | Except.ok _ => Option.none

/-! ### C3: the validation skip branches raise TypeError -/

/-- A dataset holding one conversation `conv1` with one session `s1`. -/
def c3_dataset : Dataset :=
  { conversations := [{ id := "conv1", sessions := [{ id := "s1" }] }] }

/-- A well-formed cache item whose `session_ids` do not resolve to any
session of `conv1`. -/
def c3_item : QAItem :=
  { qa_id := "q1", question_text := Option.some "How many in total?",
    answer_text := PyVal.float 5,
    evidence := Option.some [[PyVal.str "e1"]],
    conversation_id := Option.some "conv1",
    session_ids := Option.some ["s99"],
    timestamp := "2024-01-01T00:00:00", difficulty := Option.some "easy",
    status := "generated", sql_info := [] }

/-- The same item pointing at a conversation id that does not resolve. -/
def c3_item_badconv : QAItem :=
  { qa_id := "q2", question_text := Option.some "How many in total?",
    answer_text := PyVal.float 5,
    evidence := Option.some [[PyVal.str "e1"]],
    conversation_id := Option.some "nope",
    session_ids := Option.some ["s1"],
    timestamp := "2024-01-01T00:00:00", difficulty := Option.some "easy",
    status := "generated", sql_info := [] }

/-- C3: for an item whose `session_ids` (or `conversation_id`) do not
resolve, the validation step does not record a skipped outcome — it raises
`TypeError`, because the skip branches call `add_qa` with the keyword
`sql_status`, which is not a parameter of `add_qa`; the exception aborts the
batch. -/
theorem validate_qas_missing_session_raises :
    (∀ (vac : String → PyVal → List (List PyVal) → List Session → SqlInfo)
        (md5 : String → String) (now : String) (cache : List QAItem),
      validate_qas_item vac md5 now c3_dataset cache c3_item =
        Except.error (PyError.typeError
          "add_qa() got an unexpected keyword argument sql_status")) ∧
    (∀ (vac : String → PyVal → List (List PyVal) → List Session → SqlInfo)
        (md5 : String → String) (now : String) (cache : List QAItem),
      validate_qas_item vac md5 now c3_dataset cache c3_item_badconv =
        Except.error (PyError.typeError
          "add_qa() got an unexpected keyword argument sql_status")) := by
  exact ⟨fun _ _ _ _ => rfl, fun _ _ _ _ => rfl⟩

/-! ### C5: session sampling -/

theorem cons_getD_eraseIdx_perm :
    ∀ (l : List α) (i : Nat) (d : α), i < l.length →
      List.Perm (l.getD i d :: l.eraseIdx i) l := by
  intro l
  induction l with
  | nil => intro i d h; simp at h
  | cons a l ih =>
    intro i d h
    cases i with
    | zero => simp [List.eraseIdx]
    | succ i =>
      have h' : i < l.length := by simpa using h
      simp only [List.getD_cons_succ, List.eraseIdx_cons_succ]
      exact (List.Perm.swap a (l.getD i d) (l.eraseIdx i)).trans ((ih i d h').cons a)

theorem sampleGo_length : ∀ (k : Nat) (rs : List Nat) (l : List α),
    k ≤ l.length → (sampleGo k rs l).length = k := by
  intro k
  induction k with
  | zero => intro rs l _; rfl
  | succ k ih =>
    intro rs l h
    cases l with
    | nil => simp at h
    | cons a l' =>
      have hi : rs.headD 0 % (l'.length + 1) < l'.length + 1 :=
        Nat.mod_lt _ (by omega)
      have he : ((a :: l').eraseIdx (rs.headD 0 % (l'.length + 1))).length =
          l'.length := by
        rw [List.length_eraseIdx_of_lt (by simpa using hi)]
        simp
      simp only [sampleGo, List.length_cons]
      rw [ih rs.tail _ (by rw [he]; simp only [List.length_cons] at h; omega)]

theorem sampleGo_subperm : ∀ (k : Nat) (rs : List Nat) (l : List α),
    List.Subperm (sampleGo k rs l) l := by
  intro k
  induction k with
  | zero => intro rs l; exact List.nil_subperm
  | succ k ih =>
    intro rs l
    cases l with
    | nil => exact List.nil_subperm
    | cons a l' =>
      simp only [sampleGo]
      have hi : rs.headD 0 % (a :: l').length < (a :: l').length :=
        Nat.mod_lt _ (by simp)
      obtain ⟨m, hm, hs⟩ := ih rs.tail
        ((a :: l').eraseIdx (rs.headD 0 % (a :: l').length))
      refine List.Subperm.trans ⟨_ :: m, hm.cons _, hs.cons₂ _⟩ ?_
      exact (cons_getD_eraseIdx_perm (a :: l') _ a hi).subperm

/-- The successful path of session selection (enough sessions). -/
theorem select_sessions_ok (sessions : List Session)
    (min_sessions max_sessions r : Nat) (rs : List Nat)
    (h1 : min_sessions ≤ max_sessions)
    (h2 : min_sessions ≤ sessions.length) :
    ∃ sel, select_sessions sessions min_sessions max_sessions r rs =
        Except.ok sel ∧
      sel.length = min_sessions +
        r % (min max_sessions sessions.length - min_sessions + 1) ∧
      min_sessions ≤ sel.length ∧
      sel.length ≤ min max_sessions sessions.length ∧
      List.Subperm sel sessions ∧
      sel.Pairwise (fun a b => session_id_le a b = true) := by
  have hmin : min_sessions ≤ min max_sessions sessions.length :=
    le_min h1 h2
  have hk : pyRandint min_sessions (min max_sessions sessions.length) r =
      Except.ok (min_sessions +
        r % (min max_sessions sessions.length - min_sessions + 1)) := by
    unfold pyRandint
    rw [if_neg (not_lt.2 hmin)]
  have hkle : min_sessions +
      r % (min max_sessions sessions.length - min_sessions + 1) ≤
      min max_sessions sessions.length := by
    have hm := Nat.mod_lt r
      (y := min max_sessions sessions.length - min_sessions + 1) (by omega)
    omega
  have hkn : min_sessions +
      r % (min max_sessions sessions.length - min_sessions + 1) ≤
      sessions.length := le_trans hkle (min_le_right _ _)
  have hsample : pySample sessions (min_sessions +
      r % (min max_sessions sessions.length - min_sessions + 1)) rs =
      Except.ok (sampleGo (min_sessions +
        r % (min max_sessions sessions.length - min_sessions + 1)) rs
        sessions) := by
    unfold pySample
    rw [if_neg (not_lt.2 hkn)]
  have hlen : (pySorted session_id_le (sampleGo (min_sessions +
      r % (min max_sessions sessions.length - min_sessions + 1)) rs
      sessions)).length = min_sessions +
      r % (min max_sessions sessions.length - min_sessions + 1) := by
    rw [(pySorted_perm session_id_le _).length_eq,
      sampleGo_length _ rs sessions hkn]
  refine ⟨_, ?_, hlen, ?_, ?_, ?_, ?_⟩
  · simp only [select_sessions, hk, hsample]
  · omega
  · rw [hlen]; exact hkle
  · exact ((pySorted_perm session_id_le _).subperm).trans
      (sampleGo_subperm _ rs sessions)
  · exact pairwise_pySorted session_id_le
      (fun x y => strLeb_total x.id y.id)
      (fun x y z => strLeb_trans x.id y.id z.id) _

/-- C5 amended: one generation attempt draws
`k = min_sessions + r % (min(max_sessions, n) - min_sessions + 1)` — which
ranges over the whole interval `[min_sessions, min(max_sessions, n)]` as the
RNG draw does — then takes a sample of size `k` without replacement
(a sub-permutation of the sessions) and sorts it ascending by session id;
but when `n < min_sessions`, `random.randint` raises `ValueError`, which
propagates out of the generation loop instead of a soft skip. -/
theorem select_sessions_spec :
    ∀ (sessions : List Session) (min_sessions max_sessions r : Nat)
      (rs : List Nat),
      (min_sessions ≤ max_sessions → min_sessions ≤ sessions.length →
        ∃ sel, select_sessions sessions min_sessions max_sessions r rs =
            Except.ok sel ∧
          sel.length = min_sessions +
            r % (min max_sessions sessions.length - min_sessions + 1) ∧
          min_sessions ≤ sel.length ∧
          sel.length ≤ min max_sessions sessions.length ∧
          List.Subperm sel sessions ∧
          sel.Pairwise (fun a b => session_id_le a b = true)) ∧
      (min_sessions ≤ max_sessions → min_sessions ≤ sessions.length →
        ∀ t, min_sessions ≤ t → t ≤ min max_sessions sessions.length →
          ∃ r2 sel,
            select_sessions sessions min_sessions max_sessions r2 rs =
              Except.ok sel ∧ sel.length = t) ∧
      (sessions.length < min_sessions →
        select_sessions sessions min_sessions max_sessions r rs =
          Except.error (PyError.valueError "empty range for randrange")) := by
  intro sessions min_sessions max_sessions r rs
  refine ⟨?_, ?_, ?_⟩
  · intro h1 h2
    exact select_sessions_ok sessions min_sessions max_sessions r rs h1 h2
  · intro h1 h2 t ht1 ht2
    obtain ⟨sel, hsel, hlen, _⟩ :=
      select_sessions_ok sessions min_sessions max_sessions (t - min_sessions)
        rs h1 h2
    refine ⟨t - min_sessions, sel, hsel, ?_⟩
    rw [hlen, Nat.mod_eq_of_lt (by omega)]
    omega
  · intro h3
    have hlt : min max_sessions sessions.length < min_sessions :=
      lt_of_le_of_lt (min_le_right _ _) h3
    simp [select_sessions, pyRandint, hlt]

/-- A conversation with only two sessions. -/
def c5_two : List Session := [{ id := "s1" }, { id := "s2" }]

/-- C5 counterexample: with the default-style bounds `min_sessions=5,
max_sessions=10` and a 2-session conversation, selection raises
`ValueError` — it does not return empty or signal a soft skip. -/
theorem select_sessions_counterexample :
    select_sessions c5_two 5 10 0 [] =
      Except.error (PyError.valueError "empty range for randrange") := by
  rfl

/-- A conversation with six sessions. -/
def c5_six : List Session :=
  [{ id := "s4" }, { id := "s1" }, { id := "s6" },
   { id := "s3" }, { id := "s5" }, { id := "s2" }]

theorem select_sessions_spec_witness :
    ∃ sel, select_sessions c5_six 5 10 0 [] = Except.ok sel ∧
      sel.length = 5 + 0 % (min 10 c5_six.length - 5 + 1) ∧
      5 ≤ sel.length ∧
      sel.length ≤ min 10 c5_six.length ∧
      List.Subperm sel c5_six ∧
      sel.Pairwise (fun a b => session_id_le a b = true) :=
  (select_sessions_spec c5_six 5 10 0 []).1 (by decide) (by decide)

/-! ### C8: answer normalization in _parse_llm_response -/

/-- C8: every successfully parsed response carries a float answer: a
textual answer is replaced by the first signed decimal number it contains
(0.0 if none), and numeric answers are coerced to float. -/
theorem parse_llm_response_answer_normalization :
    ∀ (loads : String → Except Unit PyVal) (response : String)
      (qa : ParsedQA),
      _parse_llm_response loads response = Option.some qa →
      ∃ kvs, loads (pyStrip response) = Except.ok (PyVal.dict kvs) ∧
        qa.answer_text = parse_answer (dictGet kvs "answer") ∧
        (∀ s, dictGet kvs "answer" = Option.some (PyVal.str s) →
          qa.answer_text = (searchNumR1 s.data).getD 0) ∧
        (∀ n : Int, dictGet kvs "answer" = Option.some (PyVal.int n) →
          qa.answer_text = (n : Rat)) ∧
        (∀ q : Rat, dictGet kvs "answer" = Option.some (PyVal.float q) →
          qa.answer_text = q) := by
  intro loads response qa h
  unfold _parse_llm_response at h
  cases hl : loads (pyStrip response) with
  | error e => rw [hl] at h; simp at h
  | ok data =>
    rw [hl] at h
    cases data with
    | dict kvs =>
      dsimp only at h
      have hqa : qa.answer_text = parse_answer (dictGet kvs "answer") := by
        cases hit : iteratePy ((dictGet kvs "evidence").getD (PyVal.list []))
          with
        | error e => rw [hit] at h; simp at h
        | ok items =>
          rw [hit] at h
          dsimp only at h
          cases hpe : parse_evidence loads items with
          | error e => rw [hpe] at h; simp at h
          | ok ev =>
            rw [hpe] at h
            dsimp only at h
            simp only [Option.some.injEq] at h
            rw [← h]
      refine ⟨kvs, rfl, hqa, ?_, ?_, ?_⟩
      · intro s hs
        rw [hqa, hs]
        cases hn : searchNumR1 s.data <;> simp [parse_answer, hn]
      · intro n hn
        rw [hqa, hn]
        rfl
      · intro q hq
        rw [hqa, hq]
        rfl
    | none => simp at h
    | bool b => simp at h
    | int n => simp at h
    | float q => simp at h
    | str s => simp at h
    | list xs => simp at h

/-- A concrete loader yielding a response with a textual answer. -/
def c8_loads : String → Except Unit PyVal := fun s =>
  if s = "resp" then
    Except.ok (PyVal.dict
      [("question", PyVal.str "Q"), ("answer", PyVal.str "about 7 km"),
        ("evidence", PyVal.list [])])
  else Except.error ()

/-- The parse result of the C8 witness input. -/
def c8_qa : ParsedQA :=
  { question_text := Option.some (PyVal.str "Q"), answer_text := 7,
    evidence := [] }

theorem parse_llm_response_answer_normalization_witness :
    ∃ kvs, c8_loads (pyStrip "resp") = Except.ok (PyVal.dict kvs) ∧
      c8_qa.answer_text = parse_answer (dictGet kvs "answer") ∧
      (∀ s, dictGet kvs "answer" = Option.some (PyVal.str s) →
        c8_qa.answer_text = (searchNumR1 s.data).getD 0) ∧
      (∀ n : Int, dictGet kvs "answer" = Option.some (PyVal.int n) →
        c8_qa.answer_text = (n : Rat)) ∧
      (∀ q : Rat, dictGet kvs "answer" = Option.some (PyVal.float q) →
        c8_qa.answer_text = q) :=
  parse_llm_response_answer_normalization c8_loads "resp" c8_qa (by rfl)

/-! ### C9: evidence shape handling in _parse_llm_response -/

/-- A concrete loader whose response includes a 5-element array, a mapping,
and a 2-element array as evidence entries. -/
def c9_loads : String → Except Unit PyVal := fun s =>
  if s = "r" then
    Except.ok (PyVal.dict
      [("question", PyVal.str "Q"), ("answer", PyVal.int 1),
        ("evidence", PyVal.list
          [PyVal.list [PyVal.str "c", PyVal.str "s", PyVal.str "t",
            PyVal.float 5, PyVal.str "f"],
            PyVal.dict [("code", PyVal.str "c2")],
            PyVal.list [PyVal.str "a", PyVal.str "b"]])])
  else Except.error ()

/-- What the parser actually produces for the C9 input: only the 5-element
array survives. -/
def c9_parsed : ParsedQA :=
  { question_text := Option.some (PyVal.str "Q"), answer_text := 1,
    evidence := [("c", "s", "t", 5, "f")] }

/-- C9 counterexample: of three evidence entries (a 5-element array, a
key/value mapping, a 2-element array), only the 5-element array is kept;
the mapping and the unrecognized shape are silently discarded, not
preserved. -/
theorem parse_llm_response_evidence_counterexample :
    _parse_llm_response c9_loads "r" = Option.some c9_parsed ∧
    c9_parsed.evidence.length = 1 := by
  exact ⟨rfl, rfl⟩

/-- C9 amended: the evidence loop accepts 5-element positional arrays
(coercing fields, with a float-coercion failure aborting the whole parse)
and string entries that `json.loads` to 5-element arrays; every other
shape — mappings, arrays of other arity, unparsable strings, scalars — is
silently dropped from the evidence list. -/
theorem parse_evidence_shape_handling :
    (∀ (loads : String → Except Unit PyVal) (l rest : List PyVal)
        (e : PyEvidence),
      l.length = 5 → coerce5 l = Except.ok e →
      parse_evidence loads (PyVal.list l :: rest) =
        (parse_evidence loads rest).map (e :: ·)) ∧
    (∀ (loads : String → Except Unit PyVal) (kvs : List (String × PyVal))
        (rest : List PyVal),
      parse_evidence loads (PyVal.dict kvs :: rest) =
        parse_evidence loads rest) ∧
    (∀ (loads : String → Except Unit PyVal) (l rest : List PyVal),
      l.length ≠ 5 →
      parse_evidence loads (PyVal.list l :: rest) =
        parse_evidence loads rest) ∧
    (∀ (loads : String → Except Unit PyVal) (n : Int) (rest : List PyVal),
      parse_evidence loads (PyVal.int n :: rest) =
        parse_evidence loads rest) ∧
    (∀ (loads : String → Except Unit PyVal) (s : String)
        (rest : List PyVal) (err : Unit),
      loads s = Except.error err →
      parse_evidence loads (PyVal.str s :: rest) =
        parse_evidence loads rest) ∧
    (∀ (loads : String → Except Unit PyVal) (l rest : List PyVal)
        (err : PyError),
      l.length = 5 → coerce5 l = Except.error err →
      parse_evidence loads (PyVal.list l :: rest) = Except.error err) := by
  refine ⟨?_, ?_, ?_, ?_, ?_, ?_⟩
  · intro loads l rest e h5 hc
    simp [parse_evidence, h5, hc]
  · intro loads kvs rest
    simp [parse_evidence]
  · intro loads l rest h5
    simp [parse_evidence, h5]
  · intro loads n rest
    simp [parse_evidence]
  · intro loads s rest err hl
    simp [parse_evidence, hl]
  · intro loads l rest err h5 hc
    simp [parse_evidence, h5, hc]

/-- The surviving 5-element array of the C9 input. -/
def c9_five : List PyVal :=
  [PyVal.str "c", PyVal.str "s", PyVal.str "t", PyVal.float 5, PyVal.str "f"]

theorem parse_evidence_shape_handling_witness :
    parse_evidence (fun _ => Except.error ()) (PyVal.list c9_five :: []) =
      (parse_evidence (fun _ => Except.error ()) []).map
        ((("c", "s", "t", (5 : Rat), "f") : PyEvidence) :: ·) :=
  parse_evidence_shape_handling.1 (fun _ => Except.error ()) c9_five []
    ("c", "s", "t", 5, "f") (by rfl) (by rfl)

end AggreBench
